import Mathlib

/-!
# Workgroup sizing and the hardware-buffer import pipeline of `src/pipeline.cpp`

A shallow embedding of the compute-pipeline layer of ncnn.

* C++ `int` values are `Int`s in `[-2^31, 2^31)`; `unsigned int` / `uint32_t`
  values are `Nat`s below `2^32`.  Conversions and arithmetic wrap modulo `2^32`
  (`to_int`, `to_uint`); `/` and `%` on `int` truncate (`Int.tdiv`, `Int.tmod`).
* A loop that may run forever, or an operation whose behaviour C++ leaves
  undefined (division by zero, a shift by a negative or too large amount), makes
  the embedded function return `none`.
* Calls into the Vulkan device are answered by an explicit record of outcomes
  (`VulkanDevice`), and the calls a function makes are returned as a trace.
-/

namespace ncnn

/-! ## Machine integers -/

/-- The `int` denoted by an integer after wrapping to 32 bits (twos-complement). -/
def to_int (n : Int) : Int := (n + 2147483648) % 4294967296 - 2147483648

/-- The `unsigned int` obtained by converting an integer (reduction modulo `2^32`). -/
def to_uint (n : Int) : Nat := (n % 4294967296).toNat

/-- Multiplication of two `int`s, wrapped to 32 bits: signed overflow is undefined in
C++, and the embedding takes the wrapped product that compilers produce. -/
def mul_int (a b : Int) : Int := to_int (a * b)

/-! ## `count_trailing_zeros`, `round_up_pow2_mul`, `adjust_xyz` -/

/-- The loop of `count_trailing_zeros`: `while ((v & 1) == 0) { cnt++; v >>= 1; }`.
A nonzero 32-bit value leaves the loop within 32 tests; on `v = 0` the loop never ends,
which is the `none` returned when the 32 tests are used up. -/
def count_trailing_zeros_loop : Nat → Nat → Int → Option Int
  | 0, _, _ => none
  | fuel + 1, v, cnt =>
    if v &&& 1 = 0 then count_trailing_zeros_loop fuel (v >>> 1) (cnt + 1) else some cnt

/-- Embedding of `static int count_trailing_zeros(unsigned int v)`. -/
def count_trailing_zeros (v : Nat) : Option Int := count_trailing_zeros_loop 32 v 0

/-- Embedding of `static unsigned int round_up_pow2_mul(unsigned int v, int k)`:
`m = 1u << k; return ((v + m - 1) / m) * m;` in 32-bit unsigned arithmetic.
A shift amount outside `0..31` is undefined in C++ and gives `none`. -/
def round_up_pow2_mul (v : Nat) (k : Int) : Option Nat :=
  if 0 ≤ k ∧ k < 32 then
    let m := (1 <<< k.toNat) % 4294967296
    some (((v + m - 1) % 4294967296 / m) * m % 4294967296)
  else none

/-- The search `while ((1 << target_n) != subgroup_size) target_n++;` of `adjust_xyz`.
`1 << 31` wraps to `INT_MIN`; a shift by 32 or more is undefined, so the search gives
`none` once `target_n` would reach 32. -/
def target_n_loop (subgroup_size : Int) : Nat → Nat → Option Int
  | 0, _ => none
  | fuel + 1, target_n =>
    if to_int (1 <<< target_n : Nat) ≠ subgroup_size then
      target_n_loop subgroup_size fuel (target_n + 1)
    else some (target_n : Int)

/-- Embedding of `static void adjust_xyz(int& x, int& y, int& z, const int subgroup_size)`;
the result is the new `(x, y, z)`. -/
def adjust_xyz (x y z subgroup_size : Int) : Option (Int × Int × Int) :=
  if subgroup_size = 0 then none
  else if Int.tmod (mul_int (mul_int x y) z) subgroup_size = 0 then some (x, y, z)
  else do
    let target_n ← target_n_loop subgroup_size 32 0
    let target_n := min target_n 10
    let tx ← count_trailing_zeros (to_uint x)
    let ty ← count_trailing_zeros (to_uint y)
    let tz ← count_trailing_zeros (to_uint z)
    let tn := tx + ty + tz
    let need := target_n - tn
    if z = 1 then
      if y = 1 then do
        let x' ← round_up_pow2_mul (to_uint x) target_n
        pure (to_int x', y, z)
      else if x = 1 then do
        let y' ← round_up_pow2_mul (to_uint y) target_n
        pure (x, to_int y', z)
      else do
        let y' ← round_up_pow2_mul (to_uint y) (ty + Int.tdiv need 2)
        let x' ← round_up_pow2_mul (to_uint x) (tx + need - Int.tdiv need 2)
        pure (to_int x', to_int y', z)
    else if y = 1 then
      if x = 1 then do
        let z' ← round_up_pow2_mul (to_uint z) target_n
        pure (x, y, to_int z')
      else do
        let z' ← round_up_pow2_mul (to_uint z) (tz + Int.tdiv need 2)
        let x' ← round_up_pow2_mul (to_uint x) (tx + need - Int.tdiv need 2)
        pure (to_int x', y, to_int z')
    else if x = 1 then do
      let z' ← round_up_pow2_mul (to_uint z) (tz + Int.tdiv need 2)
      let y' ← round_up_pow2_mul (to_uint y) (ty + need - Int.tdiv need 2)
      pure (x, to_int y', to_int z')
    else do
      let z' ← round_up_pow2_mul (to_uint z) (tz + Int.tdiv need 3)
      let y' ← round_up_pow2_mul (to_uint y) (ty + Int.tdiv (need - Int.tdiv need 3) 2)
      let x' ← round_up_pow2_mul (to_uint x) (tx + need - Int.tdiv (need - Int.tdiv need 3) 2)
      pure (to_int x', to_int y', to_int z')

/-! ## `Pipeline`: local size selection -/

/-- The fields of `ShaderInfo` that `pipeline.cpp` reads. -/
structure ShaderInfo where
  specialization_count : Int
  binding_count : Int
  push_constant_count : Int
  binding_types : List Int
deriving DecidableEq

/-- The device capability queries `vkdev->info.*()` used by `pipeline.cpp`
(all of them `uint32_t` or `bool` in the source). -/
structure GpuInfo where
  max_workgroup_size_x : Nat
  max_workgroup_size_y : Nat
  max_workgroup_size_z : Nat
  max_workgroup_invocations : Nat
  subgroup_size : Nat
  min_subgroup_size : Nat
  max_subgroup_size : Nat
  support_VK_KHR_descriptor_update_template : Bool
  support_VK_KHR_push_descriptor : Bool
deriving DecidableEq

/-- Embedding of `class PipelinePrivate`; a handle is a number, `0` the null handle. -/
structure PipelinePrivate where
  shader_module : Nat
  descriptorset_layout : Nat
  pipeline_layout : Nat
  pipeline : Nat
  descriptor_update_template : Nat
  shader_info : ShaderInfo
  local_size_x : Nat
  local_size_y : Nat
  local_size_z : Nat
  subgroup_size : Nat
deriving DecidableEq

/-- Embedding of the constructor `Pipeline::Pipeline(const VulkanDevice*)`.  The
constructor does not initialise `shader_info`; its indeterminate content is the
second argument. -/
def Pipeline.new (info : GpuInfo) (shader_info : ShaderInfo) : PipelinePrivate :=
  { shader_module := 0, descriptorset_layout := 0, pipeline_layout := 0, pipeline := 0,
    descriptor_update_template := 0, shader_info := shader_info,
    local_size_x := 1, local_size_y := 1, local_size_z := 1,
    subgroup_size := info.subgroup_size }

/-- Embedding of `Pipeline::set_subgroup_size`. -/
def set_subgroup_size (info : GpuInfo) (d : PipelinePrivate) (subgroup_size : Nat) :
    PipelinePrivate :=
  let subgroup_size := max subgroup_size info.min_subgroup_size
  let subgroup_size := min subgroup_size info.max_subgroup_size
  { d with subgroup_size := subgroup_size }

/-- Embedding of `Pipeline::set_local_size_xyz(int w, int h, int c)`. -/
def set_local_size_xyz (d : PipelinePrivate) (w h c : Int) : Option PipelinePrivate := do
  let (w, h, c) ← adjust_xyz w h c (to_int d.subgroup_size)
  pure { d with local_size_x := to_uint w, local_size_y := to_uint h, local_size_z := to_uint c }

/-- The loop `while (w * h >= wh_max) { w = max(1, w / 2); h = max(1, h / 2); }` of
`set_optimal_local_size_xyz`, run for at most `fuel` tests of its condition;
`none` when the loop has not been left by then. -/
def halve_loop (wh_max : Int) : Nat → Int → Int → Option (Int × Int)
  | 0, _, _ => none
  | fuel + 1, w, h =>
    if mul_int w h ≥ wh_max then
      halve_loop wh_max fuel (max 1 (Int.tdiv w 2)) (max 1 (Int.tdiv h 2))
    else some (w, h)

/-- The expression `(int)sqrt(n)` for an `int` n: the integer square root of a
non-negative n (a double holds every `int` exactly and `sqrt` is correctly rounded);
the conversion of the NaN produced for a negative n is undefined. -/
def int_sqrt (n : Int) : Option Int :=
  if 0 ≤ n then some (Nat.sqrt n.toNat : Nat) else none

/-- Embedding of `Pipeline::set_optimal_local_size_xyz(const Mat& local_size_xyz)`, where
`w h c` are the three extents of the `Mat` and `fuel` bounds the halving loop. -/
def set_optimal_local_size_xyz (info : GpuInfo) (fuel : Nat) (d : PipelinePrivate)
    (w h c : Int) : Option PipelinePrivate :=
  let whc : Int × Int × Int := if w = 0 ∧ h = 0 ∧ c = 0 then (4, 4, 4) else (w, h, c)
  let w := min whc.1 (to_int info.max_workgroup_size_x)
  let h := min whc.2.1 (to_int info.max_workgroup_size_y)
  let c := min whc.2.2 (to_int info.max_workgroup_size_z)
  if mul_int (mul_int w h) c ≤ to_int info.max_workgroup_invocations then
    set_local_size_xyz d w h c
  else if c = 0 then none
  else do
    let max_local_size_xy := Int.tdiv (to_int info.max_workgroup_invocations) c
    let r ← int_sqrt max_local_size_xy
    let wh_max := max 1 r
    let (w, h) ← halve_loop wh_max fuel w h
    set_local_size_xyz d w h c

/-! ## `ImportAndroidHardwareBufferPipeline` -/

/-- A call into the Vulkan device made by the import pipeline, with the arguments the
embedding tracks. -/
inductive DeviceCall where
  | compile_shader_module (local_size_x local_size_y local_size_z : Nat)
  | vkCreateSampler (linear_filter : Bool)
  | vkCreateDescriptorSetLayout (immutable_sampler : Nat) (push_descriptor : Bool)
  | create_pipeline_layout (push_constant_count : Int) (descriptorset_layout : Nat)
  | create_pipeline (shader_module pipeline_layout : Nat) (specializations : List Int)
      (subgroup_size : Nat)
  | create_descriptor_update_template (binding_count : Int)
      (descriptorset_layout pipeline_layout : Nat)
deriving DecidableEq

/-- The device as seen from `ImportAndroidHardwareBufferPipeline::create`: its capability
record and the outcome of each call made on it.  A status of `0` is success
(`VK_SUCCESS`); a handle is the value the call stores through its output pointer. -/
structure VulkanDevice where
  info : GpuInfo
  compile_spirv_module_ret : Int
  resolve_shader_info_ret : Int
  resolve_shader_info_out : ShaderInfo
  compile_shader_module_handle : Nat
  vkCreateSampler_ret : Int
  vkCreateSampler_handle : Nat
  vkCreateDescriptorSetLayout_ret : Int
  vkCreateDescriptorSetLayout_handle : Nat
  create_pipeline_layout_ret : Int
  create_pipeline_layout_handle : Nat
  create_pipeline_ret : Int
  create_pipeline_handle : Nat
  create_descriptor_update_template_ret : Int
  create_descriptor_update_template_handle : Nat
deriving DecidableEq

/-- The queries of `VkAndroidHardwareBufferImageAllocator` used by `create`. -/
structure VkAndroidHardwareBufferImageAllocator where
  width : Int
  height : Int
deriving DecidableEq

/-- Embedding of `class ImportAndroidHardwareBufferPipeline`: the base `Pipeline` state
and the members `type_to`, `rotate_from`, `need_resize`, `sampler`. -/
structure ImportAndroidHardwareBufferPipeline where
  d : PipelinePrivate
  type_to : Int
  rotate_from : Int
  need_resize : Bool
  sampler : Nat
deriving DecidableEq

/-- Embedding of the constructor `ImportAndroidHardwareBufferPipeline(const VulkanDevice*)`:
the base constructor runs and `sampler = 0`.  The members `type_to`, `rotate_from` and
`need_resize` are not initialised; their indeterminate content is passed in. -/
def ImportAndroidHardwareBufferPipeline.new (info : GpuInfo) (shader_info : ShaderInfo)
    (type_to rotate_from : Int) (need_resize : Bool) : ImportAndroidHardwareBufferPipeline :=
  { d := Pipeline.new info shader_info, type_to := type_to, rotate_from := rotate_from,
    need_resize := need_resize, sampler := 0 }

/-- What a member function of the import pipeline leaves behind: its `int` result, the
object afterwards, and the device calls it made, in order. -/
structure CallResult where
  ret : Int
  self : ImportAndroidHardwareBufferPipeline
  calls : List DeviceCall
deriving DecidableEq

/-- Embedding of `ImportAndroidHardwareBufferPipeline::create_shader_module`. -/
def create_shader_module (vkdev : VulkanDevice) (self : ImportAndroidHardwareBufferPipeline) :
    CallResult :=
  if vkdev.compile_spirv_module_ret ≠ 0 then { ret := -1, self := self, calls := [] }
  else if vkdev.resolve_shader_info_ret ≠ 0 then { ret := -1, self := self, calls := [] }
  else
    let d := { self.d with shader_info := vkdev.resolve_shader_info_out }
    let call := DeviceCall.compile_shader_module d.local_size_x d.local_size_y d.local_size_z
    let d := { d with shader_module := vkdev.compile_shader_module_handle }
    { ret := 0, self := { self with d := d }, calls := [call] }

/-- Embedding of `ImportAndroidHardwareBufferPipeline::create_sampler`. -/
def create_sampler (vkdev : VulkanDevice) (self : ImportAndroidHardwareBufferPipeline) :
    CallResult :=
  let call := DeviceCall.vkCreateSampler self.need_resize
  let self := { self with sampler := vkdev.vkCreateSampler_handle }
  if vkdev.vkCreateSampler_ret ≠ 0 then { ret := -1, self := self, calls := [call] }
  else { ret := 0, self := self, calls := [call] }

/-- Embedding of `ImportAndroidHardwareBufferPipeline::create_descriptorset_layout`. -/
def create_descriptorset_layout (vkdev : VulkanDevice)
    (self : ImportAndroidHardwareBufferPipeline) : CallResult :=
  let call := DeviceCall.vkCreateDescriptorSetLayout self.sampler
    vkdev.info.support_VK_KHR_push_descriptor
  if vkdev.vkCreateDescriptorSetLayout_ret ≠ 0 then
    { ret := -1, self := self, calls := [call] }
  else
    { ret := 0,
      self := { self with d := { self.d with
        descriptorset_layout := vkdev.vkCreateDescriptorSetLayout_handle } },
      calls := [call] }

/-- Embedding of the six-argument `ImportAndroidHardwareBufferPipeline::create`
(explicit `target_width`, `target_height`); the `Option` is `none` when
`set_local_size_xyz(8, 8, 1)` does not return. -/
def create (vkdev : VulkanDevice) (self : ImportAndroidHardwareBufferPipeline)
    (ahb_im_allocator : VkAndroidHardwareBufferImageAllocator)
    (_type_to _rotate_from target_width target_height : Int) : Option CallResult := do
  let w := ahb_im_allocator.width
  let h := ahb_im_allocator.height
  let type_to := _type_to
  let rotate_from := _rotate_from
  let need_resize := false
  let need_resize :=
    if rotate_from < 5 then
      if target_width ≠ w ∨ target_height ≠ h then true else need_resize
    else
      if target_width ≠ h ∨ target_height ≠ w then true else need_resize
  let self := { self with type_to := type_to, rotate_from := rotate_from,
                          need_resize := need_resize }
  let d ← set_local_size_xyz self.d 8 8 1
  let self := { self with d := d }
  let specializations : List Int :=
    [ahb_im_allocator.width, ahb_im_allocator.height, target_width, target_height,
     self.type_to, self.rotate_from, if self.need_resize then 1 else 0]
  let r1 := create_shader_module vkdev self
  let self := r1.self
  let _shader_info := self.d.shader_info
  if (specializations.length : Int) ≠ _shader_info.specialization_count then
    pure { ret := -1, self := self, calls := r1.calls }
  else
    let r2 := create_sampler vkdev self
    let self := r2.self
    let r3 := create_descriptorset_layout vkdev self
    let self := r3.self
    let call4 := DeviceCall.create_pipeline_layout _shader_info.push_constant_count
      self.d.descriptorset_layout
    let pipeline_layout := vkdev.create_pipeline_layout_handle
    let call5 := DeviceCall.create_pipeline self.d.shader_module pipeline_layout
      specializations vkdev.info.subgroup_size
    let pipeline := vkdev.create_pipeline_handle
    let template_calls :=
      if vkdev.info.support_VK_KHR_descriptor_update_template then
        [DeviceCall.create_descriptor_update_template _shader_info.binding_count
          self.d.descriptorset_layout pipeline_layout]
      else []
    let descriptor_update_template :=
      if vkdev.info.support_VK_KHR_descriptor_update_template then
        vkdev.create_descriptor_update_template_handle
      else 0
    let self := { self with d := { self.d with
      pipeline_layout := pipeline_layout, pipeline := pipeline,
      descriptor_update_template := descriptor_update_template } }
    pure { ret := 0, self := self,
           calls := r1.calls ++ r2.calls ++ r3.calls ++ [call4, call5] ++ template_calls }

/-- Embedding of the four-argument `ImportAndroidHardwareBufferPipeline::create` (no
target size).  As in the source, the test `rotate_from < 5` reads the member
`rotate_from` of the object, which the call has not yet assigned from `_rotate_from`. -/
def create_default_target (vkdev : VulkanDevice) (self : ImportAndroidHardwareBufferPipeline)
    (ahb_im_allocator : VkAndroidHardwareBufferImageAllocator)
    (_type_to _rotate_from : Int) : Option CallResult :=
  let target : Int × Int :=
    if self.rotate_from < 5 then (ahb_im_allocator.width, ahb_im_allocator.height)
    else (ahb_im_allocator.height, ahb_im_allocator.width)
  create vkdev self ahb_im_allocator _type_to _rotate_from target.1 target.2

/-- Embedding of `ImportAndroidHardwareBufferPipeline::destroy`. -/
def destroy (self : ImportAndroidHardwareBufferPipeline) : ImportAndroidHardwareBufferPipeline :=
  if self.sampler ≠ 0 then { self with sampler := 0 } else self


/-! ## Auxiliary definitions used in the statements -/

/-- The least multiple of `2^k` that is at least `v`. -/
def ceil_mul (v k : Nat) : Nat := (v + 2 ^ k - 1) / 2 ^ k * 2 ^ k

/-- The source size as `create` orients it: `(width, height)` for `rotate_from` in 1..4,
`(height, width)` otherwise (5..8). -/
def oriented_source (ahb_im_allocator : VkAndroidHardwareBufferImageAllocator)
    (rotate_from : Int) : Int × Int :=
  if 1 ≤ rotate_from ∧ rotate_from ≤ 4 then (ahb_im_allocator.width, ahb_im_allocator.height)
  else (ahb_im_allocator.height, ahb_im_allocator.width)

/-- A device reporting exactly the limits every Vulkan implementation must support
(work-group size 128 x 128 x 64, 128 invocations), with subgroup size 32. -/
def minimal_limits_info : GpuInfo :=
  { max_workgroup_size_x := 128, max_workgroup_size_y := 128, max_workgroup_size_z := 64,
    max_workgroup_invocations := 128, subgroup_size := 32, min_subgroup_size := 32,
    max_subgroup_size := 32, support_VK_KHR_descriptor_update_template := true,
    support_VK_KHR_push_descriptor := true }

/-- A desktop-class device: work-group size 1024 x 1024 x 64, 1024 invocations,
subgroup size 32. -/
def desktop_info : GpuInfo :=
  { max_workgroup_size_x := 1024, max_workgroup_size_y := 1024, max_workgroup_size_z := 64,
    max_workgroup_invocations := 1024, subgroup_size := 32, min_subgroup_size := 32,
    max_subgroup_size := 32, support_VK_KHR_descriptor_update_template := true,
    support_VK_KHR_push_descriptor := true }

/-- The device of the worked example of the specification: limits 64 x 64 x 64,
256 invocations, subgroup size 32. -/
def example_info : GpuInfo :=
  { max_workgroup_size_x := 64, max_workgroup_size_y := 64, max_workgroup_size_z := 64,
    max_workgroup_invocations := 256, subgroup_size := 32, min_subgroup_size := 32,
    max_subgroup_size := 32, support_VK_KHR_descriptor_update_template := true,
    support_VK_KHR_push_descriptor := true }

/-- Shader metadata of the `convert_ycbcr` shader: 7 specialization constants, 3 bindings. -/
def convert_ycbcr_info : ShaderInfo :=
  { specialization_count := 7, binding_count := 3, push_constant_count := 0,
    binding_types := [1, 1, 1] }

/-- Some indeterminate `ShaderInfo` content of a freshly constructed pipeline. -/
def blank_shader_info : ShaderInfo :=
  { specialization_count := 0, binding_count := 0, push_constant_count := 0, binding_types := [] }

/-- A device on which every call of `create` succeeds, each returning a distinct non-null
handle. -/
def healthy_device (info : GpuInfo) : VulkanDevice :=
  { info := info,
    compile_spirv_module_ret := 0,
    resolve_shader_info_ret := 0,
    resolve_shader_info_out := convert_ycbcr_info,
    compile_shader_module_handle := 101,
    vkCreateSampler_ret := 0,
    vkCreateSampler_handle := 102,
    vkCreateDescriptorSetLayout_ret := 0,
    vkCreateDescriptorSetLayout_handle := 103,
    create_pipeline_layout_ret := 0,
    create_pipeline_layout_handle := 104,
    create_pipeline_ret := 0,
    create_pipeline_handle := 105,
    create_descriptor_update_template_ret := 0,
    create_descriptor_update_template_handle := 106 }

/-- The source image of the examples: 1920 x 1080. -/
def full_hd : VkAndroidHardwareBufferImageAllocator := { width := 1920, height := 1080 }

/-- A device whose subgroup size is 128 (limits 1024 x 1024 x 64, 1024 invocations). -/
def wide_subgroup_info : GpuInfo :=
  { max_workgroup_size_x := 1024, max_workgroup_size_y := 1024, max_workgroup_size_z := 64,
    max_workgroup_invocations := 1024, subgroup_size := 128, min_subgroup_size := 64,
    max_subgroup_size := 128, support_VK_KHR_descriptor_update_template := true,
    support_VK_KHR_push_descriptor := true }

/-- The healthy device, except that `vkCreateSampler` fails with
`VK_ERROR_OUT_OF_HOST_MEMORY` (-1) and stores a null handle. -/
def sampler_failure_device : VulkanDevice :=
  { healthy_device example_info with vkCreateSampler_ret := -1, vkCreateSampler_handle := 0 }

/-- The healthy device, except that the shader metadata declares 6 specialization
constants instead of 7. -/
def count_mismatch_device : VulkanDevice :=
  { healthy_device example_info with
    resolve_shader_info_out := { convert_ycbcr_info with specialization_count := 6 } }

/-- A freshly constructed import pipeline on `info`; the members the constructor leaves
uninitialised read as zero. -/
def fresh_import_pipeline (info : GpuInfo) : ImportAndroidHardwareBufferPipeline :=
  ImportAndroidHardwareBufferPipeline.new info blank_shader_info 0 0 false

/-- A device whose x axis allows only 2 invocations (limits 2 x 64 x 64, 256 invocations,
subgroup size 32). -/
def narrow_x_info : GpuInfo :=
  { max_workgroup_size_x := 2, max_workgroup_size_y := 64, max_workgroup_size_z := 64,
    max_workgroup_invocations := 256, subgroup_size := 32, min_subgroup_size := 32,
    max_subgroup_size := 32, support_VK_KHR_descriptor_update_template := true,
    support_VK_KHR_push_descriptor := true }

/-- A device that allows only 32 invocations (limits 64 x 64 x 64, subgroup size 4). -/
def few_invocations_info : GpuInfo :=
  { max_workgroup_size_x := 64, max_workgroup_size_y := 64, max_workgroup_size_z := 64,
    max_workgroup_invocations := 32, subgroup_size := 4, min_subgroup_size := 4,
    max_subgroup_size := 4, support_VK_KHR_descriptor_update_template := true,
    support_VK_KHR_push_descriptor := true }

/-! ## The run of `adjust_xyz`, and the increment of a triple -/

/-- What one run of `adjust_xyz` does besides computing its result: whether it left
through the early `return`, the values it passed to `count_trailing_zeros`, the value of
`need` (0 on the early return, where it is not computed), and the shift exponents `k` it
passed to `round_up_pow2_mul`, in order. -/
structure AdjustRun where
  result : Int × Int × Int
  early_return : Bool
  ctz_args : List Nat
  need : Int
  shifts : List Int
deriving DecidableEq

/-- The function `adjust_xyz` once more, statement by statement as in the source, keeping
the record of the run next to the result. -/
def adjust_xyz_run (x y z subgroup_size : Int) : Option AdjustRun :=
  if subgroup_size = 0 then none
  else if Int.tmod (mul_int (mul_int x y) z) subgroup_size = 0 then
    some { result := (x, y, z), early_return := true, ctz_args := [], need := 0, shifts := [] }
  else do
    let target_n ← target_n_loop subgroup_size 32 0
    let target_n := min target_n 10
    let tx ← count_trailing_zeros (to_uint x)
    let ty ← count_trailing_zeros (to_uint y)
    let tz ← count_trailing_zeros (to_uint z)
    let ctz_args := [to_uint x, to_uint y, to_uint z]
    let tn := tx + ty + tz
    let need := target_n - tn
    if z = 1 then
      if y = 1 then do
        let x' ← round_up_pow2_mul (to_uint x) target_n
        pure { result := (to_int x', y, z), early_return := false, ctz_args := ctz_args,
               need := need, shifts := [target_n] }
      else if x = 1 then do
        let y' ← round_up_pow2_mul (to_uint y) target_n
        pure { result := (x, to_int y', z), early_return := false, ctz_args := ctz_args,
               need := need, shifts := [target_n] }
      else do
        let y' ← round_up_pow2_mul (to_uint y) (ty + Int.tdiv need 2)
        let x' ← round_up_pow2_mul (to_uint x) (tx + need - Int.tdiv need 2)
        pure { result := (to_int x', to_int y', z), early_return := false,
               ctz_args := ctz_args, need := need,
               shifts := [ty + Int.tdiv need 2, tx + need - Int.tdiv need 2] }
    else if y = 1 then
      if x = 1 then do
        let z' ← round_up_pow2_mul (to_uint z) target_n
        pure { result := (x, y, to_int z'), early_return := false, ctz_args := ctz_args,
               need := need, shifts := [target_n] }
      else do
        let z' ← round_up_pow2_mul (to_uint z) (tz + Int.tdiv need 2)
        let x' ← round_up_pow2_mul (to_uint x) (tx + need - Int.tdiv need 2)
        pure { result := (to_int x', y, to_int z'), early_return := false,
               ctz_args := ctz_args, need := need,
               shifts := [tz + Int.tdiv need 2, tx + need - Int.tdiv need 2] }
    else if x = 1 then do
      let z' ← round_up_pow2_mul (to_uint z) (tz + Int.tdiv need 2)
      let y' ← round_up_pow2_mul (to_uint y) (ty + need - Int.tdiv need 2)
      pure { result := (x, to_int y', to_int z'), early_return := false,
             ctz_args := ctz_args, need := need,
             shifts := [tz + Int.tdiv need 2, ty + need - Int.tdiv need 2] }
    else do
      let z' ← round_up_pow2_mul (to_uint z) (tz + Int.tdiv need 3)
      let y' ← round_up_pow2_mul (to_uint y) (ty + Int.tdiv (need - Int.tdiv need 3) 2)
      let x' ← round_up_pow2_mul (to_uint x) (tx + need - Int.tdiv (need - Int.tdiv need 3) 2)
      pure { result := (to_int x', to_int y', to_int z'), early_return := false,
             ctz_args := ctz_args, need := need,
             shifts := [tz + Int.tdiv need 3, ty + Int.tdiv (need - Int.tdiv need 3) 2,
                        tx + need - Int.tdiv (need - Int.tdiv need 3) 2] }

/-- The total increment `(x' - x) + (y' - y) + (z' - z)` of a triple `r` over the input. -/
def total_increment (x y z : Int) (r : Int × Int × Int) : Int :=
  (r.1 - x) + (r.2.1 - y) + (r.2.2 - z)

/-- The triple `c` undercuts the result `r` of `adjust_xyz x y z s`: it is componentwise
at least the input, its product is a multiple of `s`, it is 1 on every axis that `r`
leaves at 1, and its total increment is strictly smaller than that of `r`. -/
def undercuts (x y z s : Int) (r c : Int × Int × Int) : Prop :=
  x ≤ c.1 ∧ y ≤ c.2.1 ∧ z ≤ c.2.2 ∧ (c.1 * c.2.1 * c.2.2) % s = 0 ∧
  (r.1 = 1 → c.1 = 1) ∧ (r.2.1 = 1 → c.2.1 = 1) ∧ (r.2.2 = 1 → c.2.2 = 1) ∧
  total_increment x y z c < total_increment x y z r

instance undercuts_decidable (x y z s : Int) (r c : Int × Int × Int) : Decidable (undercuts x y z s r c) := by
  unfold undercuts
  exact inferInstance

/-! ## Lemmas on the integer model and on `adjust_xyz` -/

/-- The search for `target_n` finds the exponent of a power of two up to 1024. -/
theorem target_n_loop_pow (n : Nat) (hn : n ≤ 10) :
    target_n_loop ((2 : Int) ^ n) 32 0 = some (n : Int) := by
  interval_cases n <;> decide

/-- On a nonzero value below `2^fuel` the loop of `count_trailing_zeros` ends, adding to
`cnt` the exact power of two dividing the value. -/
theorem count_trailing_zeros_loop_spec (fuel : Nat) :
    ∀ (v : Nat) (cnt : Int), 0 < v → v < 2 ^ fuel →
      ∃ t : Nat, count_trailing_zeros_loop fuel v cnt = some (cnt + t) ∧
        2 ^ t ∣ v ∧ ¬ 2 ^ (t + 1) ∣ v := by
  induction fuel with
  | zero => intro v cnt h0 h1; simp at h1; omega
  | succ f ih =>
    intro v cnt h0 h1
    unfold count_trailing_zeros_loop
    by_cases hv : v &&& 1 = 0
    · rw [if_pos hv]
      rw [Nat.and_one_is_mod] at hv
      have hlt : v >>> 1 < 2 ^ f := by
        rw [Nat.shiftRight_eq_div_pow]; rw [pow_succ] at h1; omega
      have hpos : 0 < v >>> 1 := by
        rw [Nat.shiftRight_eq_div_pow]; omega
      obtain ⟨t, ht, hd, hnd⟩ := ih (v >>> 1) (cnt + 1) hpos hlt
      refine ⟨t + 1, ?_, ?_, ?_⟩
      · rw [ht]; push_cast; congr 1; ring
      · rw [Nat.shiftRight_eq_div_pow] at hd
        have : v = 2 * (v / 2 ^ 1) := by omega
        rw [this, pow_succ, mul_comm]
        exact Nat.mul_dvd_mul_left 2 hd
      · rw [Nat.shiftRight_eq_div_pow] at hnd
        intro hc
        apply hnd
        have hv2 : v = 2 * (v / 2 ^ 1) := by omega
        rw [hv2, pow_succ (2:Nat) (t+1), mul_comm] at hc
        exact Nat.dvd_of_mul_dvd_mul_left (by norm_num) hc
    · rw [if_neg hv]
      rw [Nat.and_one_is_mod] at hv
      refine ⟨0, by simp, by simp, ?_⟩
      simp only [zero_add, pow_one]
      omega

/-- On a nonzero 32-bit value `count_trailing_zeros` returns the exponent of the largest
power of two dividing it. -/
theorem count_trailing_zeros_spec (v : Nat) (h0 : 0 < v) (h1 : v < 4294967296) :
    ∃ t : Nat, count_trailing_zeros v = some (t : Int) ∧ 2 ^ t ∣ v ∧ ¬ 2 ^ (t + 1) ∣ v := by
  obtain ⟨t, ht, hd, hnd⟩ := count_trailing_zeros_loop_spec 32 v 0 h0 (by norm_num; exact h1)
  exact ⟨t, by rw [count_trailing_zeros, ht, zero_add], hd, hnd⟩

theorem le_ceil_mul (v k : Nat) : v ≤ ceil_mul v k := by
  unfold ceil_mul
  have hp : 0 < 2 ^ k := Nat.two_pow_pos k
  have h := Nat.div_add_mod (v + 2 ^ k - 1) (2 ^ k)
  have h2 := Nat.mod_lt (v + 2 ^ k - 1) hp
  rw [Nat.mul_comm] at h
  omega

theorem ceil_mul_lt (v k : Nat) : ceil_mul v k < v + 2 ^ k := by
  unfold ceil_mul
  have hp : 0 < 2 ^ k := Nat.two_pow_pos k
  have h := Nat.div_mul_le_self (v + 2 ^ k - 1) (2 ^ k)
  omega

theorem dvd_ceil_mul (v k : Nat) : 2 ^ k ∣ ceil_mul v k := by
  unfold ceil_mul
  exact Nat.dvd_mul_left _ _

theorem ceil_mul_zero (v : Nat) : ceil_mul v 0 = v := by
  simp [ceil_mul]

theorem ceil_mul_le_of_dvd (v k B : Nat) (hB : 2 ^ k ∣ B) (hv : v ≤ B) : ceil_mul v k ≤ B := by
  obtain ⟨q, rfl⟩ := hB
  unfold ceil_mul
  have hp : 0 < 2 ^ k := Nat.two_pow_pos k
  rw [Nat.mul_comm (2 ^ k) q]
  apply Nat.mul_le_mul_right
  rw [Nat.div_le_iff_le_mul_add_pred hp]
  omega

/-- Without unsigned overflow, `round_up_pow2_mul v k` is the least multiple of `2^k` that
is at least `v`. -/
theorem round_up_pow2_mul_eq (v k : Nat) (hk : k ≤ 31) (hv : v + 2 ^ k ≤ 4294967296) :
    round_up_pow2_mul v (k : Int) = some (ceil_mul v k) := by
  have hp : 0 < 2 ^ k := Nat.two_pow_pos k
  have hlt : 2 ^ k < 4294967296 := by
    calc 2 ^ k ≤ 2 ^ 31 := Nat.pow_le_pow_right (by norm_num) hk
      _ < 4294967296 := by norm_num
  unfold round_up_pow2_mul
  rw [if_pos ⟨by omega, by omega⟩]
  simp only [Int.toNat_ofNat, Nat.one_shiftLeft]
  rw [Nat.mod_eq_of_lt hlt, Nat.mod_eq_of_lt (by omega : v + 2 ^ k - 1 < 4294967296)]
  have h := Nat.div_mul_le_self (v + 2 ^ k - 1) (2 ^ k)
  rw [Nat.mod_eq_of_lt (by omega)]
  rfl

theorem to_int_eq_add (a : Int) : ∃ q : Int, to_int a = a + 4294967296 * q := by
  refine ⟨-((a + 2147483648) / 4294967296), ?_⟩
  unfold to_int
  rw [Int.emod_def]
  ring

theorem to_int_of_range (a : Int) (h0 : -2147483648 ≤ a) (h1 : a < 2147483648) :
    to_int a = a := by
  unfold to_int
  omega

theorem to_uint_of_range (a : Int) (h0 : 0 ≤ a) (h1 : a < 4294967296) :
    to_uint a = a.toNat := by
  unfold to_uint
  rw [Int.emod_eq_of_lt h0 h1]

theorem pow_dvd_to_int_iff (n : Nat) (hn : n ≤ 32) (a : Int) :
    (2 : Int) ^ n ∣ to_int a ↔ (2 : Int) ^ n ∣ a := by
  obtain ⟨q, hq⟩ := to_int_eq_add a
  have h32 : (2 : Int) ^ n ∣ 4294967296 * q := by
    have : (2 : Int) ^ n ∣ (2 : Int) ^ 32 := pow_dvd_pow 2 hn
    exact Dvd.dvd.mul_right (by norm_num at this ⊢; exact this) q
  rw [hq]
  exact (Int.dvd_add_left h32)

/-- The test `x * y * z % subgroup_size == 0` on wrapped products decides divisibility of
the exact product, because a power of two up to `2^32` divides the modulus of the wrap. -/
theorem tmod_mul_int_eq_zero_iff (n : Nat) (hn : n ≤ 32) (x y z : Int) :
    Int.tmod (mul_int (mul_int x y) z) ((2 : Int) ^ n) = 0 ↔ (2 : Int) ^ n ∣ x * y * z := by
  rw [← Int.dvd_iff_tmod_eq_zero]
  unfold mul_int
  rw [pow_dvd_to_int_iff n hn]
  obtain ⟨q, hq⟩ := to_int_eq_add (x * y)
  have h32 : (2 : Int) ^ n ∣ 4294967296 * q * z := by
    have : (2 : Int) ^ n ∣ (2 : Int) ^ 32 := pow_dvd_pow 2 hn
    exact Dvd.dvd.mul_right (Dvd.dvd.mul_right (by norm_num at this ⊢; exact this) q) z
  rw [hq, add_mul]
  exact (Int.dvd_add_left h32)

theorem round_up_pow2_mul_small (v k : Nat) (hk : k ≤ 10) (hv : v < 2147483648) :
    round_up_pow2_mul v (k : Int) = some (ceil_mul v k) := by
  have h : 2 ^ k ≤ 2 ^ 10 := Nat.pow_le_pow_right (by norm_num) hk
  exact round_up_pow2_mul_eq v k (by omega) (by norm_num at h; omega)

theorem count_trailing_zeros_int (x : Int) (hx0 : 0 < x) (hx1 : x < 2147483648) :
    ∃ t : Nat, count_trailing_zeros (to_uint x) = some (t : Int) ∧ 2 ^ t ∣ x.toNat ∧
      (x = 1 → t = 0) := by
  rw [to_uint_of_range x (by omega) (by omega)]
  obtain ⟨t, ht, hd, -⟩ := count_trailing_zeros_spec x.toNat (by omega) (by omega)
  refine ⟨t, ht, hd, ?_⟩
  intro h1
  subst h1
  simp at hd
  rcases Nat.eq_zero_or_pos t with h | h
  · exact h
  · exfalso
    have := Nat.one_lt_two_pow (Nat.pos_iff_ne_zero.mp h)
    omega

/-- Normal form of `adjust_xyz` on positive `int`s and a power-of-two subgroup size `2^n`
up to 1024: each axis is rounded up to a multiple of `2^k` for an exponent `k ≤ n`; the
exponents are all 0 when the product already is a multiple of `2^n`, otherwise they sum
to at least `n`, and the exponent of an axis equal to 1 is 0 (for `x` if another axis is
not 1). -/
theorem adjust_xyz_normal_form (x y z : Int) (n : Nat) (hn : n ≤ 10)
    (hx0 : 0 < x) (hx1 : x < 2147483648) (hy0 : 0 < y) (hy1 : y < 2147483648)
    (hz0 : 0 < z) (hz1 : z < 2147483648) :
    ∃ kx ky kz : Nat,
      adjust_xyz x y z ((2 : Int) ^ n) =
        some (to_int (ceil_mul x.toNat kx), to_int (ceil_mul y.toNat ky),
              to_int (ceil_mul z.toNat kz)) ∧
      kx ≤ n ∧ ky ≤ n ∧ kz ≤ n ∧
      ((2 : Int) ^ n ∣ x * y * z ∨ n ≤ kx + ky + kz) ∧
      ((2 : Int) ^ n ∣ x * y * z → kx = 0 ∧ ky = 0 ∧ kz = 0) ∧
      (x = 1 → (y ≠ 1 ∨ z ≠ 1) → kx = 0) ∧ (y = 1 → ky = 0) ∧ (z = 1 → kz = 0) := by
  have hs : (2 : Int) ^ n ≠ 0 := pow_ne_zero n (by norm_num)
  have hxe : to_int ((x.toNat : Nat) : Int) = x := by
    rw [Int.toNat_of_nonneg (by omega)]; exact to_int_of_range x (by omega) hx1
  have hye : to_int ((y.toNat : Nat) : Int) = y := by
    rw [Int.toNat_of_nonneg (by omega)]; exact to_int_of_range y (by omega) hy1
  have hze : to_int ((z.toNat : Nat) : Int) = z := by
    rw [Int.toNat_of_nonneg (by omega)]; exact to_int_of_range z (by omega) hz1
  by_cases hd : (2 : Int) ^ n ∣ x * y * z
  · refine ⟨0, 0, 0, ?_, by omega, by omega, by omega, Or.inl hd, fun _ => ⟨rfl, rfl, rfl⟩,
      fun _ _ => rfl, fun _ => rfl, fun _ => rfl⟩
    unfold adjust_xyz
    rw [if_neg hs, if_pos ((tmod_mul_int_eq_zero_iff n (by omega) x y z).mpr hd)]
    simp only [ceil_mul_zero, hxe, hye, hze]
  · obtain ⟨tx, htx, hdx, hx1'⟩ := count_trailing_zeros_int x hx0 hx1
    obtain ⟨ty, hty, hdy, hy1'⟩ := count_trailing_zeros_int y hy0 hy1
    obtain ⟨tz, htz, hdz, hz1'⟩ := count_trailing_zeros_int z hz0 hz1
    have htn : tx + ty + tz < n := by
      by_contra hcon
      apply hd
      have h1 : 2 ^ (tx + ty + tz) ∣ x.toNat * y.toNat * z.toNat := by
        rw [pow_add, pow_add]
        exact Nat.mul_dvd_mul (Nat.mul_dvd_mul hdx hdy) hdz
      have h2 : 2 ^ n ∣ x.toNat * y.toNat * z.toNat :=
        dvd_trans (pow_dvd_pow 2 (by omega)) h1
      have h3 := Int.natCast_dvd_natCast.mpr h2
      push_cast at h3
      rw [Int.toNat_of_nonneg (by omega), Int.toNat_of_nonneg (by omega),
        Int.toNat_of_nonneg (by omega)] at h3
      exact h3
    unfold adjust_xyz
    rw [if_neg hs, if_neg (fun h => hd ((tmod_mul_int_eq_zero_iff n (by omega) x y z).mp h))]
    simp only [target_n_loop_pow n hn, htx, hty, htz, Option.bind_eq_bind, Option.some_bind]
    have hmin : ((n : Int) ⊓ 10) = (n : Int) := min_eq_left (by omega)
    obtain ⟨d, hdn⟩ : ∃ d : Nat, d = n - (tx + ty + tz) := ⟨_, rfl⟩
    have hneed : (n : Int) - ((tx : Int) + ty + tz) = (d : Int) := by omega
    have hux : to_uint x = x.toNat := to_uint_of_range x (by omega) (by omega)
    have huy : to_uint y = y.toNat := to_uint_of_range y (by omega) (by omega)
    have huz : to_uint z = z.toNat := to_uint_of_range z (by omega) (by omega)
    have hvx : x.toNat < 2147483648 := by omega
    have hvy : y.toNat < 2147483648 := by omega
    have hvz : z.toNat < 2147483648 := by omega
    have t2 : Int.tdiv (d : Int) 2 = ((d / 2 : Nat) : Int) := by
      rw [Int.tdiv_eq_ediv (by omega) (by norm_num)]; omega
    have t3 : Int.tdiv (d : Int) 3 = ((d / 3 : Nat) : Int) := by
      rw [Int.tdiv_eq_ediv (by omega) (by norm_num)]; omega
    have t32 : Int.tdiv ((d : Int) - ((d / 3 : Nat) : Int)) 2 = (((d - d / 3) / 2 : Nat) : Int) := by
      rw [Int.tdiv_eq_ediv (by omega) (by norm_num)]; omega
    rw [hmin, hneed, t2, t3, t32, hux, huy, huz]
    have e1 : ∀ t : Nat, (t : Int) + ((d / 2 : Nat) : Int) = ((t + d / 2 : Nat) : Int) := by
      intro t; omega
    have e2 : ∀ t : Nat, (t : Int) + (d : Int) - ((d / 2 : Nat) : Int) =
        ((t + d - d / 2 : Nat) : Int) := by
      intro t; omega
    have e3 : ∀ t : Nat, (t : Int) + ((d / 3 : Nat) : Int) = ((t + d / 3 : Nat) : Int) := by
      intro t; omega
    have e4 : ∀ t : Nat, (t : Int) + (((d - d / 3) / 2 : Nat) : Int) =
        ((t + (d - d / 3) / 2 : Nat) : Int) := by
      intro t; omega
    have e5 : ∀ t : Nat, (t : Int) + (d : Int) - (((d - d / 3) / 2 : Nat) : Int) =
        ((t + d - (d - d / 3) / 2 : Nat) : Int) := by
      intro t; omega
    simp only [e1, e2, e3, e4, e5]
    by_cases hz : z = 1
    · have htz0 := hz1' hz
      by_cases hy : y = 1
      · have hty0 := hy1' hy
        refine ⟨n, 0, 0, ?_, by omega, by omega, by omega, Or.inr (by omega),
          fun h => absurd h hd, ?_, fun _ => rfl, fun _ => rfl⟩
        · rw [if_pos hz, if_pos hy, round_up_pow2_mul_small _ _ hn hvx]
          simp only [Option.some_bind, ceil_mul_zero, hye, hze, pure]
        · intro _ h; omega
      · by_cases hx : x = 1
        · have htx0 := hx1' hx
          refine ⟨0, n, 0, ?_, by omega, by omega, by omega, Or.inr (by omega),
            fun h => absurd h hd, fun _ _ => rfl, fun h => absurd h hy, fun _ => rfl⟩
          rw [if_pos hz, if_neg hy, if_pos hx, round_up_pow2_mul_small _ _ hn hvy]
          simp only [Option.some_bind, ceil_mul_zero, hxe, hze, pure]
        · refine ⟨tx + d - d / 2, ty + d / 2, 0, ?_, by omega, by omega, by omega,
            Or.inr (by omega), fun h => absurd h hd, fun h => absurd h hx,
            fun h => absurd h hy, fun _ => rfl⟩
          rw [if_pos hz, if_neg hy, if_neg hx,
            round_up_pow2_mul_small _ _ (by omega) hvy,
            Option.some_bind, round_up_pow2_mul_small _ _ (by omega) hvx]
          simp only [Option.some_bind, ceil_mul_zero, hze, pure]
    · by_cases hy : y = 1
      · have hty0 := hy1' hy
        by_cases hx : x = 1
        · have htx0 := hx1' hx
          refine ⟨0, 0, n, ?_, by omega, by omega, by omega, Or.inr (by omega),
            fun h => absurd h hd, fun _ _ => rfl, fun _ => rfl, fun h => absurd h hz⟩
          rw [if_neg hz, if_pos hy, if_pos hx, round_up_pow2_mul_small _ _ hn hvz]
          simp only [Option.some_bind, ceil_mul_zero, hxe, hye, pure]
        · refine ⟨tx + d - d / 2, 0, tz + d / 2, ?_, by omega, by omega, by omega,
            Or.inr (by omega), fun h => absurd h hd, fun h => absurd h hx,
            fun _ => rfl, fun h => absurd h hz⟩
          rw [if_neg hz, if_pos hy, if_neg hx,
            round_up_pow2_mul_small _ _ (by omega) hvz,
            Option.some_bind, round_up_pow2_mul_small _ _ (by omega) hvx]
          simp only [Option.some_bind, ceil_mul_zero, hye, pure]
      · by_cases hx : x = 1
        · have htx0 := hx1' hx
          refine ⟨0, ty + d - d / 2, tz + d / 2, ?_, by omega, by omega, by omega,
            Or.inr (by omega), fun h => absurd h hd, fun _ _ => rfl,
            fun h => absurd h hy, fun h => absurd h hz⟩
          rw [if_neg hz, if_neg hy, if_pos hx,
            round_up_pow2_mul_small _ _ (by omega) hvz,
            Option.some_bind, round_up_pow2_mul_small _ _ (by omega) hvy]
          simp only [Option.some_bind, ceil_mul_zero, hxe, pure]
        · refine ⟨tx + d - (d - d / 3) / 2, ty + (d - d / 3) / 2, tz + d / 3, ?_,
            by omega, by omega, by omega,
            Or.inr (by omega), fun h => absurd h hd, fun h => absurd h hx,
            fun h => absurd h hy, fun h => absurd h hz⟩
          rw [if_neg hz, if_neg hy, if_neg hx,
            round_up_pow2_mul_small _ _ (by omega) hvz,
            Option.some_bind, round_up_pow2_mul_small _ _ (by omega) hvy,
            Option.some_bind, round_up_pow2_mul_small _ _ (by omega) hvx]
          simp only [Option.some_bind, pure]

theorem to_int_ceil_mul (x : Int) (n k : Nat) (hn : n ≤ 10) (hk : k ≤ n) (hx0 : 0 < x)
    (hx1 : x ≤ 2147483648 - 2 ^ n) :
    to_int (ceil_mul x.toNat k) = (ceil_mul x.toNat k : Nat) ∧
      x ≤ (ceil_mul x.toNat k : Nat) ∧ ((ceil_mul x.toNat k : Nat) : Int) ≤ 2147483648 - 2 ^ n ∧
      (2 : Int) ^ k ∣ (ceil_mul x.toNat k : Nat) := by
  have hpn : (2 : Nat) ^ n ≤ 2 ^ 10 := Nat.pow_le_pow_right (by norm_num) hn
  have hpn0 : 0 < (2 : Nat) ^ n := Nat.two_pow_pos n
  have hcast : ((2 : Int) ^ n) = ((2 ^ n : Nat) : Int) := by push_cast; rfl
  rw [hcast] at hx1 ⊢
  have hB : 2 ^ k ∣ 2147483648 - 2 ^ n := by
    apply Nat.dvd_sub'
    · have : (2 : Nat) ^ k ∣ 2 ^ 31 := pow_dvd_pow 2 (by omega)
      norm_num at this ⊢
      exact this
    · exact pow_dvd_pow 2 hk
  have hle := ceil_mul_le_of_dvd x.toNat k (2147483648 - 2 ^ n) hB (by omega)
  have hge := le_ceil_mul x.toNat k
  have hdv := dvd_ceil_mul x.toNat k
  refine ⟨to_int_of_range _ (by omega) (by omega), by omega, by omega, ?_⟩
  have := Int.natCast_dvd_natCast.mpr hdv
  push_cast at this ⊢
  exact this

/-- For inputs that leave room for the rounding (`≤ 2^31 - 2^n`), `adjust_xyz` never shrinks
an axis, stays in the same range, returns a product that is a multiple of `2^n`, and
changes nothing when the product already was one. -/
theorem adjust_xyz_bounded (x y z : Int) (n : Nat) (hn : n ≤ 10)
    (hx0 : 0 < x) (hx1 : x ≤ 2147483648 - 2 ^ n) (hy0 : 0 < y) (hy1 : y ≤ 2147483648 - 2 ^ n)
    (hz0 : 0 < z) (hz1 : z ≤ 2147483648 - 2 ^ n) :
    ∃ x' y' z' : Int, adjust_xyz x y z ((2 : Int) ^ n) = some (x', y', z') ∧
      x ≤ x' ∧ y ≤ y' ∧ z ≤ z' ∧
      x' ≤ 2147483648 - 2 ^ n ∧ y' ≤ 2147483648 - 2 ^ n ∧ z' ≤ 2147483648 - 2 ^ n ∧
      (2 : Int) ^ n ∣ x' * y' * z' ∧
      ((2 : Int) ^ n ∣ x * y * z → x' = x ∧ y' = y ∧ z' = z) := by
  have hp0 : (0 : Int) < 2 ^ n := by positivity
  obtain ⟨kx, ky, kz, he, hkx, hky, hkz, hsum, hzero, -, -, -⟩ :=
    adjust_xyz_normal_form x y z n hn hx0 (by omega) hy0 (by omega) hz0 (by omega)
  obtain ⟨ax, bx, cx, dx⟩ := to_int_ceil_mul x n kx hn hkx hx0 hx1
  obtain ⟨ay, by1, cy, dy⟩ := to_int_ceil_mul y n ky hn hky hy0 hy1
  obtain ⟨az, bz, cz, dz⟩ := to_int_ceil_mul z n kz hn hkz hz0 hz1
  rw [ax, ay, az] at he
  refine ⟨_, _, _, he, bx, by1, bz, cx, cy, cz, ?_, ?_⟩
  · rcases hsum with h | h
    · obtain ⟨h1, h2, h3⟩ := hzero h
      subst h1 h2 h3
      simp only [ceil_mul_zero]
      rw [Int.toNat_of_nonneg (by omega), Int.toNat_of_nonneg (by omega),
        Int.toNat_of_nonneg (by omega)]
      exact h
    · have h1 : (2 : Int) ^ (kx + ky + kz) ∣
          (ceil_mul x.toNat kx : Nat) * (ceil_mul y.toNat ky : Nat) * (ceil_mul z.toNat kz : Nat) := by
        rw [pow_add, pow_add]
        exact mul_dvd_mul (mul_dvd_mul dx dy) dz
      exact dvd_trans (pow_dvd_pow 2 h) h1
  · intro h
    obtain ⟨h1, h2, h3⟩ := hzero h
    subst h1 h2 h3
    simp only [ceil_mul_zero]
    rw [Int.toNat_of_nonneg (by omega), Int.toNat_of_nonneg (by omega),
      Int.toNat_of_nonneg (by omega)]
    exact ⟨rfl, rfl, rfl⟩

/-! ## Lemmas on `set_optimal_local_size_xyz` -/

theorem mul_int_of_range (a b : Int) (h0 : 0 ≤ a * b) (h1 : a * b < 2147483648) :
    mul_int a b = a * b :=
  to_int_of_range (a * b) (by omega) h1

theorem halve_step_bounds (w : Int) (hw : 1 ≤ w) :
    1 ≤ max 1 (Int.tdiv w 2) ∧ max 1 (Int.tdiv w 2) ≤ w ∧ 2 * max 1 (Int.tdiv w 2) ≤ max 2 w := by
  rw [Int.tdiv_eq_ediv (by omega) (by norm_num)]
  omega

/-- With `wh_max = 1` the halving loop is never left: `w * h` stays at least 1. -/
theorem halve_loop_diverges :
    ∀ (fuel : Nat) (w h : Int), 1 ≤ w → 1 ≤ h → w * h < 2147483648 →
      halve_loop 1 fuel w h = none := by
  intro fuel
  induction fuel with
  | zero => intro w h _ _ _; rfl
  | succ f ih =>
    intro w h hw hh hwh
    have hpos : 1 ≤ w * h := by nlinarith
    obtain ⟨a1, a2, -⟩ := halve_step_bounds w hw
    obtain ⟨b1, b2, -⟩ := halve_step_bounds h hh
    have hle : max 1 (Int.tdiv w 2) * max 1 (Int.tdiv h 2) ≤ w * h :=
      mul_le_mul a2 b2 (by omega) (by omega)
    unfold halve_loop
    rw [mul_int_of_range w h (by omega) hwh, if_pos (by omega)]
    exact ih _ _ a1 b1 (by omega)

/-- With `wh_max ≥ 2` the halving loop is left after at most `fuel + 1` tests when
`w, h ≤ 2^fuel`, with `w` and `h` not increased, still positive, and `w * h < wh_max`. -/
theorem halve_loop_terminates (wh_max : Int) (hmax : 2 ≤ wh_max) :
    ∀ (fuel : Nat) (w h : Int), 1 ≤ w → 1 ≤ h → w ≤ 2 ^ fuel → h ≤ 2 ^ fuel →
      w * h < 2147483648 →
      ∃ w' h', halve_loop wh_max (fuel + 1) w h = some (w', h') ∧
        1 ≤ w' ∧ w' ≤ w ∧ 1 ≤ h' ∧ h' ≤ h ∧ w' * h' < wh_max := by
  intro fuel
  induction fuel with
  | zero =>
    intro w h hw hh hw2 hh2 _
    have hw1 : w = 1 := by norm_num at hw2; omega
    have hh1 : h = 1 := by norm_num at hh2; omega
    subst hw1 hh1
    refine ⟨1, 1, ?_, by omega, by omega, by omega, by omega, by omega⟩
    unfold halve_loop
    rw [mul_int_of_range 1 1 (by norm_num) (by norm_num), if_neg (by omega)]
  | succ f ih =>
    intro w h hw hh hw2 hh2 hwh
    have hpos : 1 ≤ w * h := by nlinarith
    obtain ⟨a1, a2, a3⟩ := halve_step_bounds w hw
    obtain ⟨b1, b2, b3⟩ := halve_step_bounds h hh
    have hle : max 1 (Int.tdiv w 2) * max 1 (Int.tdiv h 2) ≤ w * h :=
      mul_le_mul a2 b2 (by omega) (by omega)
    have hp : (2 : Int) ^ (f + 1) = 2 * 2 ^ f := pow_succ' 2 f
    have hp1 : (1 : Int) ≤ 2 ^ f := one_le_pow₀ (by norm_num)
    unfold halve_loop
    rw [mul_int_of_range w h (by omega) hwh]
    by_cases hc : w * h ≥ wh_max
    · rw [if_pos hc]
      obtain ⟨w', h', he, c1, c2, c3, c4, c5⟩ :=
        ih _ _ a1 b1 (by omega) (by omega) (by omega)
      exact ⟨w', h', he, c1, by omega, c3, by omega, c5⟩
    · rw [if_neg hc]
      exact ⟨w, h, rfl, hw, le_refl _, hh, le_refl _, by omega⟩

theorem halve_loop_of_fuel (wh_max : Int) (hmax : 2 ≤ wh_max) (fuel : Nat) (hfuel : 32 ≤ fuel)
    (w h : Int) (hw : 1 ≤ w) (hh : 1 ≤ h) (hwh : w * h < 2147483648) :
    ∃ w' h', halve_loop wh_max fuel w h = some (w', h') ∧
      1 ≤ w' ∧ w' ≤ w ∧ 1 ≤ h' ∧ h' ≤ h ∧ w' * h' < wh_max := by
  obtain ⟨f, rfl⟩ : ∃ f, fuel = f + 1 := ⟨fuel - 1, by omega⟩
  have hp : (2 : Int) ^ 31 ≤ 2 ^ f := pow_le_pow_right₀ (by norm_num) (by omega)
  have hw' : w ≤ w * h := by nlinarith
  have hh' : h ≤ w * h := by nlinarith
  norm_num at hp
  exact halve_loop_terminates wh_max hmax f w h hw hh (by omega) (by omega) hwh

theorem to_int_two_pow (n : Nat) (hn : n ≤ 10) : to_int (((2 ^ n : Nat)) : Int) = (2 : Int) ^ n := by
  have h : (2:Int) ^ n ≤ 2 ^ 10 := pow_le_pow_right₀ (by norm_num) hn
  have h0 : (0:Int) < 2 ^ n := by positivity
  push_cast
  exact to_int_of_range _ (by omega) (by norm_num at h; omega)

theorem set_local_size_xyz_of_dvd (d : PipelinePrivate) (n : Nat) (hn : n ≤ 10)
    (hs : d.subgroup_size = 2 ^ n) (w h c : Int)
    (hw : 0 ≤ w ∧ w < 2147483648) (hh : 0 ≤ h ∧ h < 2147483648) (hc : 0 ≤ c ∧ c < 2147483648)
    (hdvd : (2 : Int) ^ n ∣ w * h * c) :
    set_local_size_xyz d w h c =
      some { d with local_size_x := w.toNat, local_size_y := h.toNat, local_size_z := c.toNat } := by
  unfold set_local_size_xyz adjust_xyz
  rw [hs, to_int_two_pow n hn, if_neg (pow_ne_zero n (by norm_num)),
    if_pos ((tmod_mul_int_eq_zero_iff n (by omega) w h c).mpr hdvd)]
  simp only [Option.bind_eq_bind, Option.some_bind, pure]
  rw [to_uint_of_range w hw.1 (by omega), to_uint_of_range h hh.1 (by omega),
    to_uint_of_range c hc.1 (by omega)]

/-- What `set_optimal_local_size_xyz` passes to `set_local_size_xyz`, for a desired triple
of positive extents on a device with positive limits below `2^31`, when the clamped
product does not overflow and the halving loop is not entered or is entered with
`wh_max ≥ 2`: the clamped `c`, and either the clamped `w`, `h` (the clamped triple fits
the invocation limit) or the pair the halving loop ends with.  The call returns, and the
triple respects the per-axis maxima and the invocation limit. -/
theorem set_optimal_local_size_xyz_pre (info : GpuInfo) (fuel : Nat) (d : PipelinePrivate)
    (w h c : Int) (hfuel : 32 ≤ fuel) (hw : 0 < w) (hh : 0 < h) (hc : 0 < c)
    (hmx : 0 < info.max_workgroup_size_x ∧ info.max_workgroup_size_x < 2147483648)
    (hmy : 0 < info.max_workgroup_size_y ∧ info.max_workgroup_size_y < 2147483648)
    (hmz : 0 < info.max_workgroup_size_z ∧ info.max_workgroup_size_z < 2147483648)
    (hinv : info.max_workgroup_invocations < 2147483648)
    (hbound : min w (info.max_workgroup_size_x : Int) * min h (info.max_workgroup_size_y : Int) *
        min c (info.max_workgroup_size_z : Int) < 2147483648)
    (hterm : min w (info.max_workgroup_size_x : Int) * min h (info.max_workgroup_size_y : Int) *
        min c (info.max_workgroup_size_z : Int) ≤ (info.max_workgroup_invocations : Int) ∨
      4 * min c (info.max_workgroup_size_z : Int) ≤ (info.max_workgroup_invocations : Int)) :
    ∃ w' h' : Int,
      set_optimal_local_size_xyz info fuel d w h c =
        set_local_size_xyz d w' h' (min c (info.max_workgroup_size_z : Int)) ∧
      (min w (info.max_workgroup_size_x : Int) * min h (info.max_workgroup_size_y : Int) *
          min c (info.max_workgroup_size_z : Int) ≤ (info.max_workgroup_invocations : Int) →
        w' = min w (info.max_workgroup_size_x : Int) ∧
        h' = min h (info.max_workgroup_size_y : Int)) ∧
      (¬ min w (info.max_workgroup_size_x : Int) * min h (info.max_workgroup_size_y : Int) *
          min c (info.max_workgroup_size_z : Int) ≤ (info.max_workgroup_invocations : Int) →
        ∃ r : Int,
          int_sqrt (Int.tdiv (info.max_workgroup_invocations : Int)
            (min c (info.max_workgroup_size_z : Int))) = some r ∧
          halve_loop (max 1 r) fuel (min w (info.max_workgroup_size_x : Int))
            (min h (info.max_workgroup_size_y : Int)) = some (w', h')) ∧
      0 < w' ∧ w' ≤ min w (info.max_workgroup_size_x : Int) ∧
      0 < h' ∧ h' ≤ min h (info.max_workgroup_size_y : Int) ∧
      w' * h' * min c (info.max_workgroup_size_z : Int) ≤ info.max_workgroup_invocations := by
  obtain ⟨mx, hmxe⟩ : ∃ mx : Int, mx = info.max_workgroup_size_x := ⟨_, rfl⟩
  obtain ⟨my, hmye⟩ : ∃ my : Int, my = info.max_workgroup_size_y := ⟨_, rfl⟩
  obtain ⟨mz, hmze⟩ : ∃ mz : Int, mz = info.max_workgroup_size_z := ⟨_, rfl⟩
  obtain ⟨M, hMe⟩ : ∃ M : Int, M = info.max_workgroup_invocations := ⟨_, rfl⟩
  have hmx0 : 0 < mx ∧ mx < 2147483648 := by omega
  have hmy0 : 0 < my ∧ my < 2147483648 := by omega
  have hmz0 : 0 < mz ∧ mz < 2147483648 := by omega
  have hM : 0 ≤ M ∧ M < 2147483648 := by omega
  rw [← hmxe, ← hmye, ← hmze] at hbound
  rw [← hmxe, ← hmye, ← hmze, ← hMe] at hterm ⊢
  obtain ⟨W, hW⟩ : ∃ W : Int, W = min w mx := ⟨_, rfl⟩
  obtain ⟨H, hH⟩ : ∃ H : Int, H = min h my := ⟨_, rfl⟩
  obtain ⟨C, hC⟩ : ∃ C : Int, C = min c mz := ⟨_, rfl⟩
  rw [← hW, ← hH, ← hC] at hterm hbound ⊢
  have hWb : 0 < W ∧ W ≤ mx ∧ W ≤ w := by omega
  have hHb : 0 < H ∧ H ≤ my ∧ H ≤ h := by omega
  have hCb : 0 < C ∧ C ≤ mz ∧ C ≤ c := by omega
  have hWH0 : 0 < W * H := mul_pos hWb.1 hHb.1
  have hWHC0 : 0 < W * H * C := mul_pos hWH0 hCb.1
  have hWHle : W * H ≤ W * H * C := le_mul_of_one_le_right (le_of_lt hWH0) (by omega)
  have e1 : mul_int W H = W * H := mul_int_of_range W H (by omega) (by omega)
  have e2 : mul_int (W * H) C = W * H * C := mul_int_of_range (W * H) C (by omega) (by omega)
  have hn0 : ¬ (w = 0 ∧ h = 0 ∧ c = 0) := by omega
  unfold set_optimal_local_size_xyz
  simp only [if_neg hn0]
  rw [to_int_of_range _ (by omega) (by omega : (info.max_workgroup_size_x : Int) < 2147483648),
    to_int_of_range _ (by omega) (by omega : (info.max_workgroup_size_y : Int) < 2147483648),
    to_int_of_range _ (by omega) (by omega : (info.max_workgroup_size_z : Int) < 2147483648),
    to_int_of_range _ (by omega) (by omega : (info.max_workgroup_invocations : Int) < 2147483648),
    ← hmxe, ← hmye, ← hmze, ← hMe, ← hW, ← hH, ← hC, e1, e2]
  by_cases hfit : W * H * C ≤ M
  · rw [if_pos hfit]
    exact ⟨W, H, rfl, fun _ => ⟨rfl, rfl⟩, fun hnf => absurd hfit hnf, hWb.1, le_refl _, hHb.1,
      le_refl _, hfit⟩
  · have h4 : 4 * C ≤ M := by
      rcases hterm with h | h
      · exact absurd h hfit
      · exact h
    rw [if_neg hfit, if_neg (by omega : ¬ C = 0)]
    have htd : Int.tdiv M C = M / C := Int.tdiv_eq_ediv (by omega) (by omega)
    have hq : 4 ≤ M / C := by
      apply (Int.le_ediv_iff_mul_le hCb.1).mpr
      omega
    have hqC : M / C * C ≤ M := Int.ediv_mul_le M (by omega)
    obtain ⟨r, hr⟩ : ∃ r : Nat, r = Nat.sqrt (M / C).toNat := ⟨_, rfl⟩
    have hr2 : 2 ≤ r := by
      rw [hr, Nat.le_sqrt]
      omega
    have hrr : r * r ≤ (M / C).toNat := by rw [hr]; exact Nat.sqrt_le _
    have hrr' : (r : Int) * r ≤ M / C := by
      have := Int.ofNat_le.mpr hrr
      push_cast at this
      rw [Int.toNat_of_nonneg (by omega)] at this
      exact this
    have hsq : int_sqrt (Int.tdiv M C) = some (r : Int) := by
      unfold int_sqrt
      rw [htd, if_pos (by omega), ← hr]
    rw [hsq]
    simp only [Option.bind_eq_bind, Option.some_bind]
    obtain ⟨w', h', he, c1, c2, c3, c4, c5⟩ :=
      halve_loop_of_fuel (max 1 (r : Int)) (by omega) fuel hfuel W H (by omega) (by omega)
        (by omega)
    rw [he, Option.some_bind]
    refine ⟨w', h', rfl, fun hf => absurd hf hfit, fun _ => ⟨_, rfl, he⟩, by omega, c2,
      by omega, c4, ?_⟩
    have hmaxr : max 1 (r : Int) = r := max_eq_right (by omega)
    rw [hmaxr] at c5
    have hr_le : (r : Int) ≤ r * r := by
      have := Nat.le_mul_self r
      exact_mod_cast this
    have hwh' : w' * h' ≤ M / C := le_trans (le_of_lt c5) (le_trans hr_le hrr')
    calc w' * h' * C ≤ M / C * C := mul_le_mul_of_nonneg_right hwh' (by omega)
      _ ≤ M := hqC

theorem set_local_size_xyz_of_adjust (d : PipelinePrivate) (n : Nat) (hn : n ≤ 10)
    (hs : d.subgroup_size = 2 ^ n) (w h c x y z : Int)
    (hadj : adjust_xyz w h c ((2 : Int) ^ n) = some (x, y, z))
    (hx : 0 ≤ x ∧ x < 4294967296) (hy : 0 ≤ y ∧ y < 4294967296) (hz : 0 ≤ z ∧ z < 4294967296) :
    set_local_size_xyz d w h c =
      some { d with local_size_x := x.toNat, local_size_y := y.toNat, local_size_z := z.toNat } := by
  unfold set_local_size_xyz
  rw [hs, to_int_two_pow n hn, hadj]
  simp only [Option.bind_eq_bind, Option.some_bind, pure]
  rw [to_uint_of_range x hx.1 hx.2, to_uint_of_range y hy.1 hy.2, to_uint_of_range z hz.1 hz.2]

/-! ## Lemmas on `ImportAndroidHardwareBufferPipeline::create` -/


theorem adjust_xyz_8_8_1_isSome (n : Nat) (hn : n ≤ 30) :
    (adjust_xyz 8 8 1 (to_int ((2 ^ n : Nat) : Int))).isSome = true := by
  interval_cases n <;> decide

theorem set_local_size_xyz_8_8_1_returns (d : PipelinePrivate) (n : Nat) (hn : n ≤ 30)
    (hs : d.subgroup_size = 2 ^ n) : ∃ d', set_local_size_xyz d 8 8 1 = some d' := by
  obtain ⟨t, ht⟩ := Option.isSome_iff_exists.mp (adjust_xyz_8_8_1_isSome n hn)
  unfold set_local_size_xyz
  rw [hs, ht]
  exact ⟨_, rfl⟩

theorem create_shader_module_keeps (vkdev : VulkanDevice)
    (self : ImportAndroidHardwareBufferPipeline) :
    (create_shader_module vkdev self).self.need_resize = self.need_resize ∧
    (create_shader_module vkdev self).self.type_to = self.type_to ∧
    (create_shader_module vkdev self).self.rotate_from = self.rotate_from ∧
    (create_shader_module vkdev self).self.sampler = self.sampler ∧
    (create_shader_module vkdev self).self.d.local_size_x = self.d.local_size_x ∧
    (create_shader_module vkdev self).self.d.local_size_y = self.d.local_size_y ∧
    (create_shader_module vkdev self).self.d.local_size_z = self.d.local_size_z ∧
    (create_shader_module vkdev self).self.d.descriptorset_layout = self.d.descriptorset_layout ∧
    (create_shader_module vkdev self).self.d.pipeline_layout = self.d.pipeline_layout ∧
    (create_shader_module vkdev self).self.d.pipeline = self.d.pipeline ∧
    (create_shader_module vkdev self).self.d.descriptor_update_template =
      self.d.descriptor_update_template := by
  unfold create_shader_module
  split_ifs <;> simp

theorem create_sampler_keeps (vkdev : VulkanDevice)
    (self : ImportAndroidHardwareBufferPipeline) :
    (create_sampler vkdev self).self.need_resize = self.need_resize ∧
    (create_sampler vkdev self).self.type_to = self.type_to ∧
    (create_sampler vkdev self).self.rotate_from = self.rotate_from ∧
    (create_sampler vkdev self).self.d = self.d := by
  unfold create_sampler
  split_ifs <;> simp

theorem create_descriptorset_layout_keeps (vkdev : VulkanDevice)
    (self : ImportAndroidHardwareBufferPipeline) :
    (create_descriptorset_layout vkdev self).self.need_resize = self.need_resize ∧
    (create_descriptorset_layout vkdev self).self.type_to = self.type_to ∧
    (create_descriptorset_layout vkdev self).self.rotate_from = self.rotate_from ∧
    (create_descriptorset_layout vkdev self).self.sampler = self.sampler ∧
    (create_descriptorset_layout vkdev self).self.d.shader_module = self.d.shader_module ∧
    (create_descriptorset_layout vkdev self).self.d.local_size_x = self.d.local_size_x ∧
    (create_descriptorset_layout vkdev self).self.d.local_size_y = self.d.local_size_y ∧
    (create_descriptorset_layout vkdev self).self.d.local_size_z = self.d.local_size_z := by
  unfold create_descriptorset_layout
  split_ifs <;> simp

/-- The value of `need_resize` after any returning call of `create`. -/
theorem create_need_resize_of_eq (vkdev : VulkanDevice)
    (self : ImportAndroidHardwareBufferPipeline)
    (ahb_im_allocator : VkAndroidHardwareBufferImageAllocator)
    (_type_to _rotate_from target_width target_height : Int) (r : CallResult)
    (hcr : create vkdev self ahb_im_allocator _type_to _rotate_from target_width target_height
        = some r) :
    r.self.need_resize =
      (if _rotate_from < 5 then
        if target_width ≠ ahb_im_allocator.width ∨ target_height ≠ ahb_im_allocator.height
        then true else false
      else
        if target_width ≠ ahb_im_allocator.height ∨ target_height ≠ ahb_im_allocator.width
        then true else false) := by
  unfold create at hcr
  cases hset : set_local_size_xyz self.d 8 8 1 with
  | none => simp [hset] at hcr
  | some d' =>
    simp only [hset, Option.bind_eq_bind, Option.some_bind] at hcr
    split_ifs at hcr <;>
      (simp only [pure, Option.some.injEq] at hcr
       subst hcr
       simp only [(create_descriptorset_layout_keeps vkdev _).1, (create_sampler_keeps vkdev _).1,
        (create_shader_module_keeps vkdev _).1]
       simp_all)

theorem set_local_size_xyz_8_8_1 (d : PipelinePrivate) (n : Nat) (hn : n ≤ 6)
    (hs : d.subgroup_size = 2 ^ n) :
    set_local_size_xyz d 8 8 1 =
      some { d with local_size_x := 8, local_size_y := 8, local_size_z := 1 } := by
  have hd : (2 : Int) ^ n ∣ 8 * 8 * 1 := by
    have : (2 : Int) ^ n ∣ 2 ^ 6 := pow_dvd_pow 2 hn
    norm_num at this ⊢
    exact this
  have h := set_local_size_xyz_of_dvd d n (by omega) hs 8 8 1 (by norm_num) (by norm_num)
    (by norm_num) hd
  rw [h]
  rfl

theorem create_shader_module_calls (vkdev : VulkanDevice)
    (self : ImportAndroidHardwareBufferPipeline) :
    (∀ a b c, DeviceCall.compile_shader_module a b c ∈ (create_shader_module vkdev self).calls →
      a = self.d.local_size_x ∧ b = self.d.local_size_y ∧ c = self.d.local_size_z) ∧
    (vkdev.compile_spirv_module_ret = 0 → vkdev.resolve_shader_info_ret = 0 →
      DeviceCall.compile_shader_module self.d.local_size_x self.d.local_size_y
        self.d.local_size_z ∈ (create_shader_module vkdev self).calls) := by
  unfold create_shader_module
  split_ifs <;> simp_all

theorem create_sampler_calls (vkdev : VulkanDevice)
    (self : ImportAndroidHardwareBufferPipeline) (a b c : Nat) :
    DeviceCall.compile_shader_module a b c ∉ (create_sampler vkdev self).calls := by
  unfold create_sampler
  split_ifs <;> simp

theorem create_descriptorset_layout_calls (vkdev : VulkanDevice)
    (self : ImportAndroidHardwareBufferPipeline) (a b c : Nat) :
    DeviceCall.compile_shader_module a b c ∉ (create_descriptorset_layout vkdev self).calls := by
  unfold create_descriptorset_layout
  split_ifs <;> simp

/-- When `set_local_size_xyz(8, 8, 1)` returns `d1`, `create` returns; the local size it
leaves is the one of `d1`, and the shader module is compiled with it. -/
theorem create_local_size_of_eq (vkdev : VulkanDevice)
    (self : ImportAndroidHardwareBufferPipeline)
    (ahb_im_allocator : VkAndroidHardwareBufferImageAllocator)
    (_type_to _rotate_from target_width target_height : Int) (d' : PipelinePrivate)
    (hset : set_local_size_xyz self.d 8 8 1 = some d') :
    ∃ r, create vkdev self ahb_im_allocator _type_to _rotate_from target_width target_height
        = some r ∧
      r.self.d.local_size_x = d'.local_size_x ∧ r.self.d.local_size_y = d'.local_size_y ∧
      r.self.d.local_size_z = d'.local_size_z ∧
      (∀ a b c, DeviceCall.compile_shader_module a b c ∈ r.calls →
        a = d'.local_size_x ∧ b = d'.local_size_y ∧ c = d'.local_size_z) ∧
      (vkdev.compile_spirv_module_ret = 0 → vkdev.resolve_shader_info_ret = 0 →
        DeviceCall.compile_shader_module d'.local_size_x d'.local_size_y d'.local_size_z
          ∈ r.calls) := by
  unfold create
  simp only [hset, Option.bind_eq_bind, Option.some_bind, List.length_cons, List.length_nil,
    Nat.reduceAdd, Nat.cast_ofNat, pure]
  generalize (if _rotate_from < 5 then
      if target_width ≠ ahb_im_allocator.width ∨ target_height ≠ ahb_im_allocator.height
      then true else false
    else
      if target_width ≠ ahb_im_allocator.height ∨ target_height ≠ ahb_im_allocator.width
      then true else false) = nr
  obtain ⟨-, -, -, -, k1, k2, k3, -⟩ := create_shader_module_keeps vkdev
    { d := d', type_to := _type_to, rotate_from := _rotate_from, need_resize := nr,
      sampler := self.sampler }
  obtain ⟨m1, m2⟩ := create_shader_module_calls vkdev
    { d := d', type_to := _type_to, rotate_from := _rotate_from, need_resize := nr,
      sampler := self.sampler }
  generalize create_shader_module vkdev
    { d := d', type_to := _type_to, rotate_from := _rotate_from, need_resize := nr,
      sampler := self.sampler } = r1 at k1 k2 k3 m1 m2 ⊢
  obtain ⟨-, -, -, k4⟩ := create_sampler_keeps vkdev r1.self
  have m3 := create_sampler_calls vkdev r1.self
  generalize create_sampler vkdev r1.self = r2 at k4 m3 ⊢
  obtain ⟨-, -, -, -, -, k5, k6, k7⟩ := create_descriptorset_layout_keeps vkdev r2.self
  have m4 := create_descriptorset_layout_calls vkdev r2.self
  generalize create_descriptorset_layout vkdev r2.self = r3 at k5 k6 k7 m4 ⊢
  simp only at k1 k2 k3 m1 m2
  by_cases hcount : (7 : Int) ≠ r1.self.d.shader_info.specialization_count
  · rw [if_pos hcount]
    exact ⟨_, rfl, k1, k2, k3, m1, m2⟩
  · rw [if_neg hcount]
    refine ⟨_, rfl, ?_, ?_, ?_, ?_, ?_⟩
    · simp only [k5, k4, k1]
    · simp only [k6, k4, k2]
    · simp only [k7, k4, k3]
    · intro a b c hmem
      simp only [List.mem_append, List.mem_cons] at hmem
      rcases hmem with (((h | h) | h) | h) | h
      · exact m1 a b c h
      · exact absurd h (m3 a b c)
      · exact absurd h (m4 a b c)
      · simp at h
      · split_ifs at h <;> simp at h
    · intro h1 h2
      simp only [List.mem_append]
      exact Or.inl (Or.inl (Or.inl (Or.inl (m2 h1 h2))))

/-! ## Subgroup alignment: `adjust_xyz` -/

/-- Claim C1, counterexample: at `x = INT_MAX`, `y = z = 1` and subgroup size 2 the
rounded value `2^31` no longer fits an `int`; `adjust_xyz` returns `x = INT_MIN`, which
is smaller than the input. -/
theorem adjust_xyz_wraps_at_int_max :
    adjust_xyz 2147483647 1 1 2 = some (-2147483648, 1, 1) ∧
      (-2147483648 : Int) < 2147483647 := by
  decide

/-- Claim C1, amended: for all positive `x, y, z` not above `2^31 - s`, where the
subgroup size `s = 2^n` is a power of two in 1..1024, `adjust_xyz` returns `x', y', z'`
with `x' ≥ x`, `y' ≥ y`, `z' ≥ z` and `(x' * y' * z') mod s = 0`. -/
theorem adjust_xyz_no_shrink_and_aligned (x y z : Int) (n : Nat) (hn : n ≤ 10)
    (hx0 : 0 < x) (hx1 : x ≤ 2147483648 - 2 ^ n) (hy0 : 0 < y) (hy1 : y ≤ 2147483648 - 2 ^ n)
    (hz0 : 0 < z) (hz1 : z ≤ 2147483648 - 2 ^ n) :
    ∃ x' y' z' : Int, adjust_xyz x y z ((2 : Int) ^ n) = some (x', y', z') ∧
      x ≤ x' ∧ y ≤ y' ∧ z ≤ z' ∧ (x' * y' * z') % (2 : Int) ^ n = 0 := by
  obtain ⟨x', y', z', he, a, b, c, -, -, -, hd, -⟩ :=
    adjust_xyz_bounded x y z n hn hx0 hx1 hy0 hy1 hz0 hz1
  exact ⟨x', y', z', he, a, b, c, Int.emod_eq_zero_of_dvd hd⟩

/-- Claim C1, witness: the amended statement at `(3, 7, 5)` and subgroup size 1024. -/
theorem adjust_xyz_no_shrink_and_aligned_witness :
    ∃ x' y' z' : Int, adjust_xyz 3 7 5 ((2 : Int) ^ 10) = some (x', y', z') ∧
      3 ≤ x' ∧ 7 ≤ y' ∧ 5 ≤ z' ∧ (x' * y' * z') % (2 : Int) ^ 10 = 0 :=
  adjust_xyz_no_shrink_and_aligned 3 7 5 10 (by decide) (by decide) (by decide) (by decide)
    (by decide) (by decide) (by decide)

/-- Claim C4, counterexample: with `y = z = 1`, `x = INT_MAX` and subgroup size 4 only
`x` changes, but to `INT_MIN`, so `x' ≥ x` fails. -/
theorem adjust_xyz_only_x_wraps_at_int_max :
    adjust_xyz 2147483647 1 1 4 = some (-2147483648, 1, 1) ∧
      ¬ ((2147483647 : Int) ≤ -2147483648) := by
  decide

/-- Claim C4, amended: for all positive `int`s `x, y, z` and every power-of-two subgroup
size `s = 2^n` in 1..1024, `adjust_xyz` returns, and an axis whose input is exactly 1 is
returned as 1 whenever some other axis is not 1 (`y` and `z` even when all three are 1);
if `y = 1` and `z = 1` the result has `y' = 1`, `z' = 1`, and `x' ≥ x` provided
`x ≤ 2^31 - s`. -/
theorem adjust_xyz_keeps_unit_axes (x y z : Int) (n : Nat) (hn : n ≤ 10)
    (hx0 : 0 < x) (hx1 : x < 2147483648) (hy0 : 0 < y) (hy1 : y < 2147483648)
    (hz0 : 0 < z) (hz1 : z < 2147483648) :
    ∃ x' y' z' : Int, adjust_xyz x y z ((2 : Int) ^ n) = some (x', y', z') ∧
      (x = 1 → (y ≠ 1 ∨ z ≠ 1) → x' = 1) ∧
      (y = 1 → (x ≠ 1 ∨ z ≠ 1) → y' = 1) ∧
      (z = 1 → (x ≠ 1 ∨ y ≠ 1) → z' = 1) ∧
      (y = 1 → z = 1 → y' = 1 ∧ z' = 1 ∧ (x ≤ 2147483648 - 2 ^ n → x ≤ x')) := by
  obtain ⟨kx, ky, kz, he, hkx, -, -, -, -, fx, fy, fz⟩ :=
    adjust_xyz_normal_form x y z n hn hx0 hx1 hy0 hy1 hz0 hz1
  have hxe : to_int ((x.toNat : Nat) : Int) = x := by
    rw [Int.toNat_of_nonneg (by omega)]; exact to_int_of_range x (by omega) hx1
  have hye : to_int ((y.toNat : Nat) : Int) = y := by
    rw [Int.toNat_of_nonneg (by omega)]; exact to_int_of_range y (by omega) hy1
  have hze : to_int ((z.toNat : Nat) : Int) = z := by
    rw [Int.toNat_of_nonneg (by omega)]; exact to_int_of_range z (by omega) hz1
  have gy : y = 1 → to_int (ceil_mul y.toNat ky) = 1 := by
    intro h; rw [fy h, ceil_mul_zero, hye]; exact h
  have gz : z = 1 → to_int (ceil_mul z.toNat kz) = 1 := by
    intro h; rw [fz h, ceil_mul_zero, hze]; exact h
  refine ⟨_, _, _, he, ?_, fun h _ => gy h, fun h _ => gz h, ?_⟩
  · intro h1 h2
    rw [fx h1 h2, ceil_mul_zero, hxe]
    exact h1
  · intro h1 h2
    refine ⟨gy h1, gz h2, ?_⟩
    intro hb
    obtain ⟨ax, bx, -, -⟩ := to_int_ceil_mul x n kx hn hkx hx0 hb
    rw [ax]
    exact bx

/-- Claim C4, witness: `(5, 1, 1)` with subgroup size 8. -/
theorem adjust_xyz_keeps_unit_axes_witness :
    ∃ x' y' z' : Int, adjust_xyz 5 1 1 ((2 : Int) ^ 3) = some (x', y', z') ∧
      ((5 : Int) = 1 → ((1 : Int) ≠ 1 ∨ (1 : Int) ≠ 1) → x' = 1) ∧
      ((1 : Int) = 1 → ((5 : Int) ≠ 1 ∨ (1 : Int) ≠ 1) → y' = 1) ∧
      ((1 : Int) = 1 → ((5 : Int) ≠ 1 ∨ (1 : Int) ≠ 1) → z' = 1) ∧
      ((1 : Int) = 1 → (1 : Int) = 1 →
        y' = 1 ∧ z' = 1 ∧ ((5 : Int) ≤ 2147483648 - 2 ^ 3 → 5 ≤ x')) :=
  adjust_xyz_keeps_unit_axes 5 1 1 3 (by decide) (by decide) (by decide) (by decide)
    (by decide) (by decide) (by decide)

/-! ## Local size selection: `set_optimal_local_size_xyz` -/

/-- Claim C2, failing inputs: the clamped and halved triple is rounded up by
`set_local_size_xyz` and nothing checks the limits again.  On a device with limits
1024 x 1024 x 64, 1024 invocations and subgroup size 32, the desired triple `(5, 5, 33)`
fits (825 invocations) and is stored as `(8, 8, 34)`, 2176 invocations.  On a device
with the minimum limits Vulkan requires (128 x 128 x 64, 128 invocations, subgroup
size 32) the desired triple `(5, 5, 5)` fits (125 invocations) and is stored as
`(8, 8, 6)`, 384 invocations. -/
theorem set_optimal_local_size_xyz_exceeds_invocations :
    (set_optimal_local_size_xyz desktop_info 32 (Pipeline.new desktop_info blank_shader_info)
        5 5 33).map (fun d => (d.local_size_x, d.local_size_y, d.local_size_z)) =
      some (8, 8, 34) ∧
    desktop_info.max_workgroup_invocations < 8 * 8 * 34 ∧
    (set_optimal_local_size_xyz minimal_limits_info 32
        (Pipeline.new minimal_limits_info blank_shader_info)
        5 5 5).map (fun d => (d.local_size_x, d.local_size_y, d.local_size_z)) =
      some (8, 8, 6) ∧
    minimal_limits_info.max_workgroup_invocations < 8 * 8 * 6 := by
  decide

/-- What `set_optimal_local_size_xyz` stores, for a desired triple of positive extents on a
device with positive limits below `2^31` and a power-of-two subgroup size `s = 2^n` in
1..1024, when the clamped product is at most `2^31 - 1024` and the halving loop is not
entered or is entered with `wh_max ≥ 2`.  The call returns.  The triple `(w', h', c')`
handed to the alignment is the clamped one if it fits the invocation limit, otherwise
the clamped `c` with the pair the halving loop ends with; it respects the per-axis
maxima and the invocation limit.  The stored local size is `adjust_xyz w' h' c' s`:
componentwise at least `(w', h', c')`, with a product that is a multiple of `s`, and
equal to `(w', h', c')` when `w' * h' * c'` already is a multiple of `s`; nothing bounds
it by the device limits otherwise. -/
theorem set_optimal_local_size_xyz_aligns_triple_within_limits (info : GpuInfo) (fuel : Nat)
    (d : PipelinePrivate) (w h c : Int) (n : Nat)
    (hfuel : 32 ≤ fuel) (hn : n ≤ 10) (hs : d.subgroup_size = 2 ^ n)
    (hw : 0 < w) (hh : 0 < h) (hc : 0 < c)
    (hmx : 0 < info.max_workgroup_size_x ∧ info.max_workgroup_size_x < 2147483648)
    (hmy : 0 < info.max_workgroup_size_y ∧ info.max_workgroup_size_y < 2147483648)
    (hmz : 0 < info.max_workgroup_size_z ∧ info.max_workgroup_size_z < 2147483648)
    (hinv : info.max_workgroup_invocations < 2147483648)
    (hbound : min w (info.max_workgroup_size_x : Int) * min h (info.max_workgroup_size_y : Int) *
        min c (info.max_workgroup_size_z : Int) ≤ 2147482624)
    (hterm : min w (info.max_workgroup_size_x : Int) * min h (info.max_workgroup_size_y : Int) *
        min c (info.max_workgroup_size_z : Int) ≤ (info.max_workgroup_invocations : Int) ∨
      4 * min c (info.max_workgroup_size_z : Int) ≤ (info.max_workgroup_invocations : Int)) :
    ∃ w' h' x' y' z' : Int,
      (min w (info.max_workgroup_size_x : Int) * min h (info.max_workgroup_size_y : Int) *
          min c (info.max_workgroup_size_z : Int) ≤ (info.max_workgroup_invocations : Int) →
        w' = min w (info.max_workgroup_size_x : Int) ∧
        h' = min h (info.max_workgroup_size_y : Int)) ∧
      (¬ min w (info.max_workgroup_size_x : Int) * min h (info.max_workgroup_size_y : Int) *
          min c (info.max_workgroup_size_z : Int) ≤ (info.max_workgroup_invocations : Int) →
        ∃ r : Int,
          int_sqrt (Int.tdiv (info.max_workgroup_invocations : Int)
            (min c (info.max_workgroup_size_z : Int))) = some r ∧
          halve_loop (max 1 r) fuel (min w (info.max_workgroup_size_x : Int))
            (min h (info.max_workgroup_size_y : Int)) = some (w', h')) ∧
      0 < w' ∧ w' ≤ min w (info.max_workgroup_size_x : Int) ∧
      0 < h' ∧ h' ≤ min h (info.max_workgroup_size_y : Int) ∧
      w' * h' * min c (info.max_workgroup_size_z : Int) ≤ info.max_workgroup_invocations ∧
      adjust_xyz w' h' (min c (info.max_workgroup_size_z : Int)) ((2 : Int) ^ n) =
        some (x', y', z') ∧
      w' ≤ x' ∧ h' ≤ y' ∧ min c (info.max_workgroup_size_z : Int) ≤ z' ∧
      (2 : Int) ^ n ∣ x' * y' * z' ∧
      ((2 : Int) ^ n ∣ w' * h' * min c (info.max_workgroup_size_z : Int) →
        x' = w' ∧ y' = h' ∧ z' = min c (info.max_workgroup_size_z : Int)) ∧
      set_optimal_local_size_xyz info fuel d w h c =
        some { d with local_size_x := x'.toNat, local_size_y := y'.toNat,
                      local_size_z := z'.toNat } := by
  obtain ⟨w', h', he, hfit, hloop, a1, a2, b1, b2, hprod⟩ :=
    set_optimal_local_size_xyz_pre info fuel d w h c hfuel hw hh hc hmx hmy hmz hinv
      (by omega) hterm
  generalize hW : min w (info.max_workgroup_size_x : Int) = W at *
  generalize hH : min h (info.max_workgroup_size_y : Int) = H at *
  generalize hC : min c (info.max_workgroup_size_z : Int) = C at *
  have hW0 : 0 < W := by omega
  have hH0 : 0 < H := by omega
  have hC0 : 0 < C := by omega
  have hWH0 : 0 < W * H := mul_pos hW0 hH0
  have hWHle : W * H ≤ W * H * C := le_mul_of_one_le_right (le_of_lt hWH0) (by omega)
  have hWle : W ≤ W * H := le_mul_of_one_le_right (le_of_lt hW0) (by omega)
  have hHle : H ≤ W * H := le_mul_of_one_le_left (le_of_lt hH0) (by omega)
  have hCle : C ≤ W * H * C := le_mul_of_one_le_left (le_of_lt hC0) (by omega)
  have hpn : (2 : Int) ^ n ≤ 2 ^ 10 := pow_le_pow_right₀ (by norm_num) hn
  have hp0 : (0 : Int) < 2 ^ n := by positivity
  norm_num at hpn
  obtain ⟨x', y', z', hadj, d1, d2, d3, e1, e2, e3, hdvd, hsame⟩ :=
    adjust_xyz_bounded w' h' C n hn a1 (by omega) b1 (by omega) hC0 (by omega)
  refine ⟨w', h', x', y', z', hfit, hloop, a1, a2, b1, b2, hprod, hadj, d1, d2, d3, hdvd,
    hsame, ?_⟩
  rw [he]
  exact set_local_size_xyz_of_adjust d n hn hs w' h' C x' y' z' hadj (by omega) (by omega)
    (by omega)

/-- The device of the worked example (limits 64 x 64 x 64, 256 invocations, subgroup
size 32) with the desired triple `(8, 8, 8)`, as an instance of the theorem above. -/
theorem set_optimal_local_size_xyz_aligns_triple_within_limits_witness :
    ∃ w' h' x' y' z' : Int,
      (min 8 (example_info.max_workgroup_size_x : Int) *
        min 8 (example_info.max_workgroup_size_y : Int) *
          min 8 (example_info.max_workgroup_size_z : Int) ≤
              (example_info.max_workgroup_invocations : Int) →
        w' = min 8 (example_info.max_workgroup_size_x : Int) ∧
        h' = min 8 (example_info.max_workgroup_size_y : Int)) ∧
      (¬ min 8 (example_info.max_workgroup_size_x : Int) *
        min 8 (example_info.max_workgroup_size_y : Int) *
          min 8 (example_info.max_workgroup_size_z : Int) ≤
              (example_info.max_workgroup_invocations : Int) →
        ∃ r : Int,
          int_sqrt (Int.tdiv (example_info.max_workgroup_invocations : Int)
            (min 8 (example_info.max_workgroup_size_z : Int))) = some r ∧
          halve_loop (max 1 r) 32 (min 8 (example_info.max_workgroup_size_x : Int))
            (min 8 (example_info.max_workgroup_size_y : Int)) = some (w', h')) ∧
      0 < w' ∧ w' ≤ min 8 (example_info.max_workgroup_size_x : Int) ∧
      0 < h' ∧ h' ≤ min 8 (example_info.max_workgroup_size_y : Int) ∧
      w' * h' *
        min 8 (example_info.max_workgroup_size_z : Int) ≤ example_info.max_workgroup_invocations ∧
      adjust_xyz w' h' (min 8 (example_info.max_workgroup_size_z : Int)) ((2 : Int) ^ 5) =
        some (x', y', z') ∧
      w' ≤ x' ∧ h' ≤ y' ∧ min 8 (example_info.max_workgroup_size_z : Int) ≤ z' ∧
      (2 : Int) ^ 5 ∣ x' * y' * z' ∧
      ((2 : Int) ^ 5 ∣ w' * h' * min 8 (example_info.max_workgroup_size_z : Int) →
        x' = w' ∧ y' = h' ∧ z' = min 8 (example_info.max_workgroup_size_z : Int)) ∧
      set_optimal_local_size_xyz example_info 32
          (Pipeline.new example_info blank_shader_info) 8 8 8 =
        some { Pipeline.new example_info blank_shader_info with
                 local_size_x := x'.toNat, local_size_y := y'.toNat,
                 local_size_z := z'.toNat } :=
  set_optimal_local_size_xyz_aligns_triple_within_limits example_info 32
    (Pipeline.new example_info blank_shader_info) 8 8 8 5 (by decide) (by decide) (by decide)
    (by decide) (by decide) (by decide) (by decide) (by decide) (by decide) (by decide)
    (by decide) (by decide)

/-- The worked example of the specification, evaluated: limits 64 x 64 x 64, 256
invocations, subgroup size 32 and desired `(8, 8, 8)` store the local size `(2, 2, 8)`,
whose product 32 is a multiple of 32 and at most 256. -/
theorem set_optimal_local_size_xyz_example :
    (set_optimal_local_size_xyz example_info 32 (Pipeline.new example_info blank_shader_info)
        8 8 8).map (fun d => (d.local_size_x, d.local_size_y, d.local_size_z)) =
      some (2, 2, 8) := by
  have hsq : Nat.sqrt 32 = 5 := (Nat.eq_sqrt.mpr ⟨by norm_num, by norm_num⟩).symm
  have e0 : ¬ ((8 : Int) = 0 ∧ (8 : Int) = 0 ∧ (8 : Int) = 0) := by decide
  have e1 : to_int ((64 : Nat) : Int) = 64 := by decide
  have e2 : to_int ((256 : Nat) : Int) = 256 := by decide
  have e3 : min (8 : Int) 64 = 8 := by decide
  have e5 : mul_int (mul_int 8 8) 8 = 512 := by decide
  have e6 : ¬ ((512 : Int) ≤ 256) := by decide
  have e7 : Int.tdiv 256 8 = 32 := by decide
  have e8 : int_sqrt 32 = some 5 := by
    unfold int_sqrt
    rw [if_pos (by decide)]
    have : (32 : Int).toNat = 32 := by decide
    rw [this, hsq]
    rfl
  have e9 : max (1 : Int) 5 = 5 := by decide
  have e10 : ¬ ((8 : Int) = 0) := by decide
  have e11 : halve_loop 5 32 8 8 = some (2, 2) := by decide
  have e12 : (set_local_size_xyz (Pipeline.new example_info blank_shader_info) 2 2 8).map
      (fun d => (d.local_size_x, d.local_size_y, d.local_size_z)) = some (2, 2, 8) := by
    decide
  unfold set_optimal_local_size_xyz
  simp only [example_info, if_neg e0, e1, e2, e3, e5, if_neg e6, if_neg e10, e7, e8,
    Option.bind_eq_bind, Option.some_bind, e9, e11]
  exact e12

/-- Claim C3, failing input: on a device reporting the minimum limits Vulkan requires
(128 x 128 x 64, 128 invocations) the desired triple `(2, 2, 64)` does not fit,
`wh_max = max(1, (int)sqrt(128 / 64)) = 1`, and the loop `while (w * h >= wh_max)` is
never left, since `w * h` cannot drop below 1: whatever the number of iterations
allowed, `set_optimal_local_size_xyz` does not return. -/
theorem set_optimal_local_size_xyz_halving_never_ends (fuel : Nat) (d : PipelinePrivate) :
    set_optimal_local_size_xyz minimal_limits_info fuel d 2 2 64 = none := by
  have hsq : Nat.sqrt 2 = 1 := (Nat.eq_sqrt.mpr ⟨by norm_num, by norm_num⟩).symm
  have hloop := halve_loop_diverges fuel 2 2 (by norm_num) (by norm_num) (by norm_num)
  have e0 : ¬ ((2 : Int) = 0 ∧ (2 : Int) = 0 ∧ (64 : Int) = 0) := by decide
  have e1 : to_int ((128 : Nat) : Int) = 128 := by decide
  have e2 : to_int ((64 : Nat) : Int) = 64 := by decide
  have e3 : min (2 : Int) 128 = 2 := by decide
  have e4 : min (64 : Int) 64 = 64 := by decide
  have e5 : mul_int (mul_int 2 2) 64 = 256 := by decide
  have e6 : ¬ ((256 : Int) ≤ 128) := by decide
  have e7 : Int.tdiv 128 64 = 2 := by decide
  have e8 : int_sqrt 2 = some 1 := by
    unfold int_sqrt
    rw [if_pos (by decide)]
    have : (2 : Int).toNat = 2 := by decide
    rw [this, hsq]
    rfl
  have e9 : max (1 : Int) 1 = 1 := by decide
  have e10 : ¬ ((64 : Int) = 0) := by decide
  unfold set_optimal_local_size_xyz
  simp only [minimal_limits_info, if_neg e0, e1, e2, e3, e4, e5, if_neg e6, if_neg e10, e7, e8,
    Option.bind_eq_bind, Option.some_bind, e9, hloop, Option.none_bind]

/-- Claim C10: for every device limits, subgroup size and pipeline state, the desired
triple `(0, 0, 0)` gives exactly the result of the desired triple `(4, 4, 4)`; and on
every device with positive limits below `2^31` and a power-of-two subgroup size
`s = 2^n` in 1..1024 on which the halving loop is not entered or is entered with
`wh_max ≥ 2` (16 invocations allowed are enough), the call with `(0, 0, 0)` returns and
stores a local size, namely the alignment `adjust_xyz w' h' c' s` of the default
`(4, 4, 4)` clamped to the per-axis maxima and, if that does not fit the invocation
limit, with `w'`, `h'` the pair the halving loop ends with. -/
theorem set_optimal_local_size_xyz_zero_is_default (info : GpuInfo) (fuel : Nat)
    (d : PipelinePrivate) :
    set_optimal_local_size_xyz info fuel d 0 0 0 =
      set_optimal_local_size_xyz info fuel d 4 4 4 ∧
    ∀ n : Nat, 32 ≤ fuel → n ≤ 10 → d.subgroup_size = 2 ^ n →
      (0 < info.max_workgroup_size_x ∧ info.max_workgroup_size_x < 2147483648) →
      (0 < info.max_workgroup_size_y ∧ info.max_workgroup_size_y < 2147483648) →
      (0 < info.max_workgroup_size_z ∧ info.max_workgroup_size_z < 2147483648) →
      info.max_workgroup_invocations < 2147483648 →
      (min 4 (info.max_workgroup_size_x : Int) * min 4 (info.max_workgroup_size_y : Int) *
          min 4 (info.max_workgroup_size_z : Int) ≤ (info.max_workgroup_invocations : Int) ∨
        4 * min 4 (info.max_workgroup_size_z : Int) ≤ (info.max_workgroup_invocations : Int)) →
      ∃ w' h' x' y' z' : Int,
        (min 4 (info.max_workgroup_size_x : Int) * min 4 (info.max_workgroup_size_y : Int) *
            min 4 (info.max_workgroup_size_z : Int) ≤ (info.max_workgroup_invocations : Int) →
          w' = min 4 (info.max_workgroup_size_x : Int) ∧
          h' = min 4 (info.max_workgroup_size_y : Int)) ∧
        (¬ min 4 (info.max_workgroup_size_x : Int) * min 4 (info.max_workgroup_size_y : Int) *
            min 4 (info.max_workgroup_size_z : Int) ≤ (info.max_workgroup_invocations : Int) →
          ∃ r : Int,
            int_sqrt (Int.tdiv (info.max_workgroup_invocations : Int)
              (min 4 (info.max_workgroup_size_z : Int))) = some r ∧
            halve_loop (max 1 r) fuel (min 4 (info.max_workgroup_size_x : Int))
              (min 4 (info.max_workgroup_size_y : Int)) = some (w', h')) ∧
        0 < w' ∧ w' ≤ min 4 (info.max_workgroup_size_x : Int) ∧
        0 < h' ∧ h' ≤ min 4 (info.max_workgroup_size_y : Int) ∧
        w' * h' * min 4 (info.max_workgroup_size_z : Int) ≤ info.max_workgroup_invocations ∧
        adjust_xyz w' h' (min 4 (info.max_workgroup_size_z : Int)) ((2 : Int) ^ n) =
          some (x', y', z') ∧
        w' ≤ x' ∧ h' ≤ y' ∧ min 4 (info.max_workgroup_size_z : Int) ≤ z' ∧
        (2 : Int) ^ n ∣ x' * y' * z' ∧
        ((2 : Int) ^ n ∣ w' * h' * min 4 (info.max_workgroup_size_z : Int) →
          x' = w' ∧ y' = h' ∧ z' = min 4 (info.max_workgroup_size_z : Int)) ∧
        set_optimal_local_size_xyz info fuel d 0 0 0 =
          some { d with local_size_x := x'.toNat, local_size_y := y'.toNat,
                        local_size_z := z'.toNat } := by
  have heq : set_optimal_local_size_xyz info fuel d 0 0 0 =
      set_optimal_local_size_xyz info fuel d 4 4 4 := by
    unfold set_optimal_local_size_xyz
    simp
  refine ⟨heq, ?_⟩
  intro n hfuel hn hs hmx hmy hmz hinv hterm
  have hb : min 4 (info.max_workgroup_size_x : Int) * min 4 (info.max_workgroup_size_y : Int) *
      min 4 (info.max_workgroup_size_z : Int) ≤ 2147482624 := by
    have h1 : min 4 (info.max_workgroup_size_x : Int) * min 4 (info.max_workgroup_size_y : Int)
        ≤ 4 * 4 := mul_le_mul (min_le_left _ _) (min_le_left _ _) (by omega) (by norm_num)
    have h2 : min 4 (info.max_workgroup_size_x : Int) * min 4 (info.max_workgroup_size_y : Int) *
        min 4 (info.max_workgroup_size_z : Int) ≤ 4 * 4 * 4 :=
      mul_le_mul h1 (min_le_left _ _) (by omega) (by norm_num)
    omega
  rw [heq]
  exact set_optimal_local_size_xyz_aligns_triple_within_limits info fuel d 4 4 4 n hfuel hn hs
    (by norm_num) (by norm_num) (by norm_num) hmx hmy hmz hinv hb hterm

/-- Claim C10, witness: a device allowing only 32 invocations (limits 64 x 64 x 64,
subgroup size 4), on which the default `(4, 4, 4)` does not fit and is halved. -/
theorem set_optimal_local_size_xyz_zero_is_default_witness :
    ∃ w' h' x' y' z' : Int,
      (min 4 (few_invocations_info.max_workgroup_size_x : Int) *
        min 4 (few_invocations_info.max_workgroup_size_y : Int) *
          min 4 (few_invocations_info.max_workgroup_size_z : Int) ≤
              (few_invocations_info.max_workgroup_invocations : Int) →
        w' = min 4 (few_invocations_info.max_workgroup_size_x : Int) ∧
        h' = min 4 (few_invocations_info.max_workgroup_size_y : Int)) ∧
      (¬ min 4 (few_invocations_info.max_workgroup_size_x : Int) *
        min 4 (few_invocations_info.max_workgroup_size_y : Int) *
          min 4 (few_invocations_info.max_workgroup_size_z : Int) ≤
              (few_invocations_info.max_workgroup_invocations : Int) →
        ∃ r : Int,
          int_sqrt (Int.tdiv (few_invocations_info.max_workgroup_invocations : Int)
            (min 4 (few_invocations_info.max_workgroup_size_z : Int))) = some r ∧
          halve_loop (max 1 r) 32 (min 4 (few_invocations_info.max_workgroup_size_x : Int))
            (min 4 (few_invocations_info.max_workgroup_size_y : Int)) = some (w', h')) ∧
      0 < w' ∧ w' ≤ min 4 (few_invocations_info.max_workgroup_size_x : Int) ∧
      0 < h' ∧ h' ≤ min 4 (few_invocations_info.max_workgroup_size_y : Int) ∧
      w' * h' *
        min 4 (few_invocations_info.max_workgroup_size_z : Int) ≤
            few_invocations_info.max_workgroup_invocations ∧
      adjust_xyz w' h' (min 4 (few_invocations_info.max_workgroup_size_z : Int)) ((2 : Int) ^ 2) =
        some (x', y', z') ∧
      w' ≤ x' ∧ h' ≤ y' ∧ min 4 (few_invocations_info.max_workgroup_size_z : Int) ≤ z' ∧
      (2 : Int) ^ 2 ∣ x' * y' * z' ∧
      ((2 : Int) ^ 2 ∣ w' * h' * min 4 (few_invocations_info.max_workgroup_size_z : Int) →
        x' = w' ∧ y' = h' ∧ z' = min 4 (few_invocations_info.max_workgroup_size_z : Int)) ∧
      set_optimal_local_size_xyz few_invocations_info 32
          (Pipeline.new few_invocations_info blank_shader_info) 0 0 0 =
        some { Pipeline.new few_invocations_info blank_shader_info with
                 local_size_x := x'.toNat, local_size_y := y'.toNat,
                 local_size_z := z'.toNat } :=
  (set_optimal_local_size_xyz_zero_is_default few_invocations_info 32
    (Pipeline.new few_invocations_info blank_shader_info)).2 2 (by decide) (by decide)
    (by decide) (by decide) (by decide) (by decide) (by decide) (by decide)

/-- The default triple, evaluated: the desired triple `(0, 0, 0)` stores `(4, 4, 4)` on the
device of the worked example (it fits), `(2, 4, 4)` on a device whose x axis allows 2
(clamped), and `(1, 1, 4)` on a device that allows 32 invocations (halved twice). -/
theorem set_optimal_local_size_xyz_zero_examples :
    (set_optimal_local_size_xyz example_info 32 (Pipeline.new example_info blank_shader_info)
        0 0 0).map (fun d => (d.local_size_x, d.local_size_y, d.local_size_z)) =
      some (4, 4, 4) ∧
    (set_optimal_local_size_xyz narrow_x_info 32 (Pipeline.new narrow_x_info blank_shader_info)
        0 0 0).map (fun d => (d.local_size_x, d.local_size_y, d.local_size_z)) =
      some (2, 4, 4) ∧
    (set_optimal_local_size_xyz few_invocations_info 32
        (Pipeline.new few_invocations_info blank_shader_info)
        0 0 0).map (fun d => (d.local_size_x, d.local_size_y, d.local_size_z)) =
      some (1, 1, 4) := by
  refine ⟨by decide, by decide, ?_⟩
  have hsq : Nat.sqrt 8 = 2 := (Nat.eq_sqrt.mpr ⟨by norm_num, by norm_num⟩).symm
  have e0 : ¬ ((4 : Int) = 0 ∧ (4 : Int) = 0 ∧ (4 : Int) = 0) := by decide
  have e1 : to_int ((64 : Nat) : Int) = 64 := by decide
  have e2 : to_int ((32 : Nat) : Int) = 32 := by decide
  have e3 : min (4 : Int) 64 = 4 := by decide
  have e5 : mul_int (mul_int 4 4) 4 = 64 := by decide
  have e6 : ¬ ((64 : Int) ≤ 32) := by decide
  have e7 : Int.tdiv 32 4 = 8 := by decide
  have e8 : int_sqrt 8 = some 2 := by
    unfold int_sqrt
    rw [if_pos (by decide)]
    have : (8 : Int).toNat = 8 := by decide
    rw [this, hsq]
    rfl
  have e9 : max (1 : Int) 2 = 2 := by decide
  have e10 : ¬ ((4 : Int) = 0) := by decide
  have e11 : halve_loop 2 32 4 4 = some (1, 1) := by decide
  have e12 : (set_local_size_xyz (Pipeline.new few_invocations_info blank_shader_info)
      1 1 4).map (fun d => (d.local_size_x, d.local_size_y, d.local_size_z)) =
        some (1, 1, 4) := by
    decide
  have heq : set_optimal_local_size_xyz few_invocations_info 32
      (Pipeline.new few_invocations_info blank_shader_info) 0 0 0 =
      set_optimal_local_size_xyz few_invocations_info 32
        (Pipeline.new few_invocations_info blank_shader_info) 4 4 4 := by
    unfold set_optimal_local_size_xyz
    simp
  rw [heq]
  unfold set_optimal_local_size_xyz
  simp only [few_invocations_info, if_neg e0, e1, e2, e3, e5, if_neg e6, if_neg e10, e7, e8,
    Option.bind_eq_bind, Option.some_bind, e9, e11]
  exact e12

/-! ## The import pipeline: `ImportAndroidHardwareBufferPipeline::create` -/

/-- Claim C5, failing input: on a pipeline whose member `rotate_from` holds a value below
5 (a freshly constructed one whose uninitialised member reads 0, or one on which `create`
ran before with `rotate_from = 1`), `create` without target size, called with
`_rotate_from = 6` on a 1920 x 1080 source, tests the stale member and resolves the
target to 1920 x 1080 instead of 1080 x 1920: the call is the explicit-target call with
target 1920 x 1080, it leaves `need_resize = true`, and the pipeline is built with the
specialization values `[1920, 1080, 1920, 1080, 1, 6, 1]`. -/
theorem create_default_target_reads_stale_rotate_from :
    create_default_target (healthy_device example_info) (fresh_import_pipeline example_info)
        full_hd 1 6 =
      create (healthy_device example_info) (fresh_import_pipeline example_info)
        full_hd 1 6 1920 1080 ∧
    (create_default_target (healthy_device example_info) (fresh_import_pipeline example_info)
        full_hd 1 6).map (fun r => (r.ret, r.self.rotate_from, r.self.need_resize)) =
      some (0, 6, true) ∧
    (create_default_target (healthy_device example_info) (fresh_import_pipeline example_info)
        full_hd 1 6).map
        (fun r => decide (DeviceCall.create_pipeline 101 104 [1920, 1080, 1920, 1080, 1, 6, 1] 32
          ∈ r.calls)) = some true ∧
    ((create_default_target (healthy_device example_info) (fresh_import_pipeline example_info)
        full_hd 1 1).bind
        (fun r1 => create_default_target (healthy_device example_info) r1.self full_hd 1 6)).map
        (fun r => (r.ret, r.self.rotate_from, r.self.need_resize)) = some (0, 6, true) := by
  decide

/-- Claim C6: for every `rotate_from` in 1..8, source size and caller-supplied target,
whenever `create` with explicit target returns, `need_resize` is true if and only if the
target differs from the oriented source size, `(w, h)` for `rotate_from` in 1..4 and
`(h, w)` for 5..8; and `create` does return when the subgroup size of the pipeline is a
power of two. -/
theorem create_need_resize_iff (vkdev : VulkanDevice)
    (self : ImportAndroidHardwareBufferPipeline)
    (ahb_im_allocator : VkAndroidHardwareBufferImageAllocator)
    (_type_to _rotate_from target_width target_height : Int)
    (hr : 1 ≤ _rotate_from ∧ _rotate_from ≤ 8) :
    (∀ r, create vkdev self ahb_im_allocator _type_to _rotate_from target_width target_height
        = some r →
      (r.self.need_resize = true ↔
        (target_width, target_height) ≠ oriented_source ahb_im_allocator _rotate_from)) ∧
    (∀ n : Nat, n ≤ 30 → self.d.subgroup_size = 2 ^ n →
      ∃ r, create vkdev self ahb_im_allocator _type_to _rotate_from target_width target_height
        = some r) := by
  constructor
  · intro r hcr
    rw [create_need_resize_of_eq vkdev self ahb_im_allocator _type_to _rotate_from target_width
      target_height r hcr]
    unfold oriented_source
    by_cases h5 : _rotate_from < 5
    · have h14 : 1 ≤ _rotate_from ∧ _rotate_from ≤ 4 := ⟨hr.1, by omega⟩
      rw [if_pos h5, if_pos h14]
      by_cases ht : target_width ≠ ahb_im_allocator.width ∨
          target_height ≠ ahb_im_allocator.height
      · rw [if_pos ht]
        refine ⟨fun _ h => ?_, fun _ => rfl⟩
        rcases ht with h1 | h1
        · exact h1 (Prod.mk.inj h).1
        · exact h1 (Prod.mk.inj h).2
      · rw [if_neg ht]
        have ht' : target_width = ahb_im_allocator.width ∧
            target_height = ahb_im_allocator.height := by
          push_neg at ht
          exact ht
        constructor
        · intro h
          cases h
        · intro h
          exact absurd (by rw [ht'.1, ht'.2]) h
    · have h14 : ¬ (1 ≤ _rotate_from ∧ _rotate_from ≤ 4) := by omega
      rw [if_neg h5, if_neg h14]
      by_cases ht : target_width ≠ ahb_im_allocator.height ∨
          target_height ≠ ahb_im_allocator.width
      · rw [if_pos ht]
        refine ⟨fun _ h => ?_, fun _ => rfl⟩
        rcases ht with h1 | h1
        · exact h1 (Prod.mk.inj h).1
        · exact h1 (Prod.mk.inj h).2
      · rw [if_neg ht]
        have ht' : target_width = ahb_im_allocator.height ∧
            target_height = ahb_im_allocator.width := by
          push_neg at ht
          exact ht
        constructor
        · intro h
          cases h
        · intro h
          exact absurd (by rw [ht'.1, ht'.2]) h
  · intro n hn hs
    obtain ⟨d', hd'⟩ := set_local_size_xyz_8_8_1_returns self.d n hn hs
    obtain ⟨r, hr', -⟩ := create_local_size_of_eq vkdev self ahb_im_allocator _type_to
      _rotate_from target_width target_height d' hd'
    exact ⟨r, hr'⟩

/-- Claim C6, witness: source 1920 x 1080, `rotate_from = 6`, target 640 x 360 on the
healthy device. -/
theorem create_need_resize_iff_witness :
    ((1 : Int) ≤ 6 ∧ (6 : Int) ≤ 8) ∧
    (∀ r, create (healthy_device example_info) (fresh_import_pipeline example_info) full_hd
        1 6 640 360 = some r →
      (r.self.need_resize = true ↔ ((640 : Int), (360 : Int)) ≠ oriented_source full_hd 6)) ∧
    (∀ n : Nat, n ≤ 30 → (fresh_import_pipeline example_info).d.subgroup_size = 2 ^ n →
      ∃ r, create (healthy_device example_info) (fresh_import_pipeline example_info) full_hd
        1 6 640 360 = some r) :=
  ⟨by decide, create_need_resize_iff (healthy_device example_info)
    (fresh_import_pipeline example_info) full_hd 1 6 640 360 (by decide)⟩

/-- The example of claim C6, evaluated: source 1920 x 1080, `rotate_from = 6`, target
640 x 360 gives `need_resize = true`; target 1080 x 1920 gives `need_resize = false`. -/
theorem create_need_resize_example :
    (create (healthy_device example_info) (fresh_import_pipeline example_info) full_hd
        1 6 640 360).map (fun r => r.self.need_resize) = some true ∧
    (create (healthy_device example_info) (fresh_import_pipeline example_info) full_hd
        1 6 1080 1920).map (fun r => r.self.need_resize) = some false := by
  decide

/-- Claim C7, counterexample: on a device whose subgroup size is 128, `create` stores the
local size `(16, 8, 1)` and compiles the shader module with it: `set_local_size_xyz(8, 8, 1)`
aligns the 64 invocations to the subgroup size. -/
theorem create_local_size_subgroup_128 :
    (create (healthy_device wide_subgroup_info) (fresh_import_pipeline wide_subgroup_info)
        full_hd 1 1 1920 1080).map
        (fun r => (r.self.d.local_size_x, r.self.d.local_size_y, r.self.d.local_size_z,
          r.calls.head?)) =
      some (16, 8, 1, some (DeviceCall.compile_shader_module 16 8 1)) := by
  decide

/-- Claim C7, amended: whenever the subgroup size of the pipeline is a power of two that
divides 64 (1, 2, ..., 64), for every device and every input `create` returns, the
local size it stores is exactly `(8, 8, 1)`, every `compile_shader_module` call it makes
is with `(8, 8, 1)`, and it makes that call whenever the SPIR-V module was compiled and
its metadata resolved. -/
theorem create_local_size_8_8_1 (vkdev : VulkanDevice)
    (self : ImportAndroidHardwareBufferPipeline)
    (ahb_im_allocator : VkAndroidHardwareBufferImageAllocator)
    (_type_to _rotate_from target_width target_height : Int) (n : Nat) (hn : n ≤ 6)
    (hs : self.d.subgroup_size = 2 ^ n) :
    ∃ r, create vkdev self ahb_im_allocator _type_to _rotate_from target_width target_height
        = some r ∧
      r.self.d.local_size_x = 8 ∧ r.self.d.local_size_y = 8 ∧ r.self.d.local_size_z = 1 ∧
      (∀ a b c, DeviceCall.compile_shader_module a b c ∈ r.calls → a = 8 ∧ b = 8 ∧ c = 1) ∧
      (vkdev.compile_spirv_module_ret = 0 → vkdev.resolve_shader_info_ret = 0 →
        DeviceCall.compile_shader_module 8 8 1 ∈ r.calls) :=
  create_local_size_of_eq vkdev self ahb_im_allocator _type_to _rotate_from target_width
    target_height _ (set_local_size_xyz_8_8_1 self.d n hn hs)

/-- Claim C7, witness: the healthy device with subgroup size 32 and a 1920 x 1080 source. -/
theorem create_local_size_8_8_1_witness :
    ∃ r, create (healthy_device example_info) (fresh_import_pipeline example_info) full_hd
        1 1 1920 1080 = some r ∧
      r.self.d.local_size_x = 8 ∧ r.self.d.local_size_y = 8 ∧ r.self.d.local_size_z = 1 ∧
      (∀ a b c, DeviceCall.compile_shader_module a b c ∈ r.calls → a = 8 ∧ b = 8 ∧ c = 1) ∧
      ((healthy_device example_info).compile_spirv_module_ret = 0 →
        (healthy_device example_info).resolve_shader_info_ret = 0 →
        DeviceCall.compile_shader_module 8 8 1 ∈ r.calls) :=
  create_local_size_8_8_1 (healthy_device example_info) (fresh_import_pipeline example_info)
    full_hd 1 1 1920 1080 5 (by decide) (by decide)

/-- Claim C8, failing input: when `vkCreateSampler` fails (status -1, null handle) and
every other step succeeds, `create` still returns 0: the status of `create_sampler` is
dropped, the null sampler is bound into the descriptor-set layout and the pipeline
objects are created. -/
theorem create_returns_zero_after_sampler_failure :
    sampler_failure_device.vkCreateSampler_ret = -1 ∧
    (create sampler_failure_device (fresh_import_pipeline example_info) full_hd
        1 1 1920 1080).map (fun r => (r.ret, r.self.sampler, r.self.d.pipeline)) =
      some (0, 0, 105) := by
  decide

/-- Claim C9, failing input: on a freshly constructed pipeline, when the shader metadata
declares 6 specialization constants, `create` returns -1 with null pipeline, layouts,
update template and sampler, but the shader module compiled before the count test
(handle 101) stays stored in the pipeline. -/
theorem create_count_mismatch_keeps_shader_module :
    (create count_mismatch_device (fresh_import_pipeline example_info) full_hd
        1 1 1920 1080).map (fun r => (r.ret, r.self.d.shader_module)) = some (-1, 101) ∧
    (create count_mismatch_device (fresh_import_pipeline example_info) full_hd
        1 1 1920 1080).map
        (fun r => (r.self.d.pipeline, r.self.d.descriptorset_layout, r.self.d.pipeline_layout,
          r.self.d.descriptor_update_template, r.self.sampler)) = some (0, 0, 0, 0, 0) := by
  decide

/-! ## `adjust_xyz`: total increment and totality -/

/-- Claim C11, failing inputs: `adjust_xyz(3, 5, 1, 4)` returns `(4, 6, 1)`, total
increment 2, although `(4, 5, 1)` has product 20, a multiple of 4, keeps `z = 1` and has
total increment 1; `adjust_xyz(3, 3, 3, 8)` returns `(4, 4, 4)`, total increment 3,
although `(4, 4, 3)` has product 48, a multiple of 8, and total increment 2. -/
theorem adjust_xyz_increment_not_minimal :
    adjust_xyz 3 5 1 4 = some (4, 6, 1) ∧ undercuts 3 5 1 4 (4, 6, 1) (4, 5, 1) ∧
    adjust_xyz 3 3 3 8 = some (4, 4, 4) ∧ undercuts 3 3 3 8 (4, 4, 4) (4, 4, 3) := by
  decide

/-- The record kept by `adjust_xyz_run` does not change the computation: its result is
the result of `adjust_xyz`, on every input. -/
theorem adjust_xyz_run_result (x y z subgroup_size : Int) :
    (adjust_xyz_run x y z subgroup_size).map (fun r => r.result) =
      adjust_xyz x y z subgroup_size := by
  unfold adjust_xyz_run adjust_xyz
  by_cases h0 : subgroup_size = 0
  · rw [if_pos h0, if_pos h0]; rfl
  rw [if_neg h0, if_neg h0]
  by_cases h1 : Int.tmod (mul_int (mul_int x y) z) subgroup_size = 0
  · rw [if_pos h1, if_pos h1]; rfl
  rw [if_neg h1, if_neg h1]
  cases target_n_loop subgroup_size 32 0 with
  | none => rfl
  | some n =>
    cases count_trailing_zeros (to_uint x) with
    | none => rfl
    | some tx =>
      cases count_trailing_zeros (to_uint y) with
      | none => rfl
      | some ty =>
        cases count_trailing_zeros (to_uint z) with
        | none => rfl
        | some tz =>
          simp only [Option.bind_eq_bind, Option.some_bind]
          split_ifs <;>
            simp only [Option.map_bind', Option.map_some', Option.pure_def]

/-- Claim C12: for all non-negative `int`s `x, y, z` (zeros included) and every
power-of-two subgroup size `s = 2^n` in 1..1024, `adjust_xyz` is total: the search for
`target_n` ends (with `n`), the run returns, `count_trailing_zeros` is only applied to
non-zero values (on which it returns), `need` is strictly positive whenever the early
return is not taken, and every shift exponent passed to `round_up_pow2_mul` lies in
0..10. -/
theorem adjust_xyz_total (x y z : Int) (n : Nat) (hn : n ≤ 10)
    (hx : 0 ≤ x ∧ x < 2147483648) (hy : 0 ≤ y ∧ y < 2147483648)
    (hz : 0 ≤ z ∧ z < 2147483648) :
    target_n_loop ((2 : Int) ^ n) 32 0 = some (n : Int) ∧
    ∃ run : AdjustRun, adjust_xyz_run x y z ((2 : Int) ^ n) = some run ∧
      adjust_xyz x y z ((2 : Int) ^ n) = some run.result ∧
      (∀ v ∈ run.ctz_args, v ≠ 0 ∧ ∃ t, count_trailing_zeros v = some t) ∧
      (run.early_return = false → 0 < run.need) ∧
      (∀ k ∈ run.shifts, 0 ≤ k ∧ k ≤ 10) := by
  refine ⟨target_n_loop_pow n hn, ?_⟩
  suffices h : ∃ run : AdjustRun, adjust_xyz_run x y z ((2 : Int) ^ n) = some run ∧
      (∀ v ∈ run.ctz_args, v ≠ 0 ∧ ∃ t, count_trailing_zeros v = some t) ∧
      (run.early_return = false → 0 < run.need) ∧
      (∀ k ∈ run.shifts, 0 ≤ k ∧ k ≤ 10) by
    obtain ⟨run, hrun, h1, h2, h3⟩ := h
    refine ⟨run, hrun, ?_, h1, h2, h3⟩
    rw [← adjust_xyz_run_result, hrun]
    rfl
  have hs : (2 : Int) ^ n ≠ 0 := pow_ne_zero n (by norm_num)
  by_cases hd : (2 : Int) ^ n ∣ x * y * z
  · refine ⟨{ result := (x, y, z), early_return := true, ctz_args := [], need := 0,
              shifts := [] }, ?_, ?_, ?_, ?_⟩
    · unfold adjust_xyz_run
      rw [if_neg hs, if_pos ((tmod_mul_int_eq_zero_iff n (by omega) x y z).mpr hd)]
    · intro v hv
      cases hv
    · intro h
      cases h
    · intro k hk
      cases hk
  · have hx0 : 0 < x := by
      rcases Int.lt_or_lt_of_ne (fun h : x = 0 => hd (by rw [h]; simp)) with h | h
      · omega
      · exact h
    have hy0 : 0 < y := by
      rcases Int.lt_or_lt_of_ne (fun h : y = 0 => hd (by rw [h]; simp)) with h | h
      · omega
      · exact h
    have hz0 : 0 < z := by
      rcases Int.lt_or_lt_of_ne (fun h : z = 0 => hd (by rw [h]; simp)) with h | h
      · omega
      · exact h
    have hx1 := hx.2
    have hy1 := hy.2
    have hz1 := hz.2
    obtain ⟨tx, htx, hdx, hx1'⟩ := count_trailing_zeros_int x hx0 hx1
    obtain ⟨ty, hty, hdy, hy1'⟩ := count_trailing_zeros_int y hy0 hy1
    obtain ⟨tz, htz, hdz, hz1'⟩ := count_trailing_zeros_int z hz0 hz1
    have htn : tx + ty + tz < n := by
      by_contra hcon
      apply hd
      have h1 : 2 ^ (tx + ty + tz) ∣ x.toNat * y.toNat * z.toNat := by
        rw [pow_add, pow_add]
        exact Nat.mul_dvd_mul (Nat.mul_dvd_mul hdx hdy) hdz
      have h2 : 2 ^ n ∣ x.toNat * y.toNat * z.toNat :=
        dvd_trans (pow_dvd_pow 2 (by omega)) h1
      have h3 := Int.natCast_dvd_natCast.mpr h2
      push_cast at h3
      rw [Int.toNat_of_nonneg (by omega), Int.toNat_of_nonneg (by omega),
        Int.toNat_of_nonneg (by omega)] at h3
      exact h3
    unfold adjust_xyz_run
    rw [if_neg hs, if_neg (fun h => hd ((tmod_mul_int_eq_zero_iff n (by omega) x y z).mp h))]
    simp only [target_n_loop_pow n hn, htx, hty, htz, Option.bind_eq_bind, Option.some_bind]
    have hmin : ((n : Int) ⊓ 10) = (n : Int) := min_eq_left (by omega)
    obtain ⟨d, hdn⟩ : ∃ d : Nat, d = n - (tx + ty + tz) := ⟨_, rfl⟩
    have hneed : (n : Int) - ((tx : Int) + ty + tz) = (d : Int) := by omega
    have hux : to_uint x = x.toNat := to_uint_of_range x (by omega) (by omega)
    have huy : to_uint y = y.toNat := to_uint_of_range y (by omega) (by omega)
    have huz : to_uint z = z.toNat := to_uint_of_range z (by omega) (by omega)
    have hvx : x.toNat < 2147483648 := by omega
    have hvy : y.toNat < 2147483648 := by omega
    have hvz : z.toNat < 2147483648 := by omega
    have t2 : Int.tdiv (d : Int) 2 = ((d / 2 : Nat) : Int) := by
      rw [Int.tdiv_eq_ediv (by omega) (by norm_num)]; omega
    have t3 : Int.tdiv (d : Int) 3 = ((d / 3 : Nat) : Int) := by
      rw [Int.tdiv_eq_ediv (by omega) (by norm_num)]; omega
    have t32 : Int.tdiv ((d : Int) - ((d / 3 : Nat) : Int)) 2 =
        (((d - d / 3) / 2 : Nat) : Int) := by
      rw [Int.tdiv_eq_ediv (by omega) (by norm_num)]; omega
    rw [hux] at htx
    rw [huy] at hty
    rw [huz] at htz
    rw [hmin, hneed, t2, t3, t32, hux, huy, huz]
    have e1 : ∀ t : Nat, (t : Int) + ((d / 2 : Nat) : Int) = ((t + d / 2 : Nat) : Int) := by
      intro t; omega
    have e2 : ∀ t : Nat, (t : Int) + (d : Int) - ((d / 2 : Nat) : Int) =
        ((t + d - d / 2 : Nat) : Int) := by
      intro t; omega
    have e3 : ∀ t : Nat, (t : Int) + ((d / 3 : Nat) : Int) = ((t + d / 3 : Nat) : Int) := by
      intro t; omega
    have e4 : ∀ t : Nat, (t : Int) + (((d - d / 3) / 2 : Nat) : Int) =
        ((t + (d - d / 3) / 2 : Nat) : Int) := by
      intro t; omega
    have e5 : ∀ t : Nat, (t : Int) + (d : Int) - (((d - d / 3) / 2 : Nat) : Int) =
        ((t + d - (d - d / 3) / 2 : Nat) : Int) := by
      intro t; omega
    simp only [e1, e2, e3, e4, e5]
    have hctz : ∀ v ∈ [x.toNat, y.toNat, z.toNat],
        v ≠ 0 ∧ ∃ t, count_trailing_zeros v = some t := by
      intro v hv
      simp only [List.mem_cons, List.mem_singleton, List.not_mem_nil, or_false] at hv
      rcases hv with rfl | rfl | rfl
      · exact ⟨by omega, _, htx⟩
      · exact ⟨by omega, _, hty⟩
      · exact ⟨by omega, _, htz⟩
    have hpos : (0 : Int) < (d : Int) := by omega
    by_cases hz' : z = 1
    · have htz0 := hz1' hz'
      by_cases hy' : y = 1
      · have hty0 := hy1' hy'
        rw [if_pos hz', if_pos hy', round_up_pow2_mul_small _ _ hn hvx]
        refine ⟨_, rfl, hctz, fun _ => hpos, ?_⟩
        intro k hk
        simp only [List.mem_cons, List.mem_singleton, List.not_mem_nil, or_false] at hk
        omega
      · by_cases hx' : x = 1
        · rw [if_pos hz', if_neg hy', if_pos hx', round_up_pow2_mul_small _ _ hn hvy]
          refine ⟨_, rfl, hctz, fun _ => hpos, ?_⟩
          intro k hk
          simp only [List.mem_cons, List.mem_singleton, List.not_mem_nil, or_false] at hk
          omega
        · rw [if_pos hz', if_neg hy', if_neg hx',
            round_up_pow2_mul_small _ _ (by omega) hvy,
            Option.some_bind, round_up_pow2_mul_small _ _ (by omega) hvx]
          refine ⟨_, rfl, hctz, fun _ => hpos, ?_⟩
          intro k hk
          simp only [List.mem_cons, List.mem_singleton, List.not_mem_nil, or_false] at hk
          omega
    · by_cases hy' : y = 1
      · by_cases hx' : x = 1
        · rw [if_neg hz', if_pos hy', if_pos hx', round_up_pow2_mul_small _ _ hn hvz]
          refine ⟨_, rfl, hctz, fun _ => hpos, ?_⟩
          intro k hk
          simp only [List.mem_cons, List.mem_singleton, List.not_mem_nil, or_false] at hk
          omega
        · rw [if_neg hz', if_pos hy', if_neg hx',
            round_up_pow2_mul_small _ _ (by omega) hvz,
            Option.some_bind, round_up_pow2_mul_small _ _ (by omega) hvx]
          refine ⟨_, rfl, hctz, fun _ => hpos, ?_⟩
          intro k hk
          simp only [List.mem_cons, List.mem_singleton, List.not_mem_nil, or_false] at hk
          omega
      · by_cases hx' : x = 1
        · rw [if_neg hz', if_neg hy', if_pos hx',
            round_up_pow2_mul_small _ _ (by omega) hvz,
            Option.some_bind, round_up_pow2_mul_small _ _ (by omega) hvy]
          refine ⟨_, rfl, hctz, fun _ => hpos, ?_⟩
          intro k hk
          simp only [List.mem_cons, List.mem_singleton, List.not_mem_nil, or_false] at hk
          omega
        · rw [if_neg hz', if_neg hy', if_neg hx',
            round_up_pow2_mul_small _ _ (by omega) hvz,
            Option.some_bind, round_up_pow2_mul_small _ _ (by omega) hvy,
            Option.some_bind, round_up_pow2_mul_small _ _ (by omega) hvx]
          refine ⟨_, rfl, hctz, fun _ => hpos, ?_⟩
          intro k hk
          simp only [List.mem_cons, List.mem_singleton, List.not_mem_nil, or_false] at hk
          omega

/-- Claim C12, witness: `(3, 7, 5)` with subgroup size 1024, where the early return is not
taken and all three axes are rounded. -/
theorem adjust_xyz_total_witness :
    target_n_loop ((2 : Int) ^ 10) 32 0 = some ((10 : Nat) : Int) ∧
    ∃ run : AdjustRun, adjust_xyz_run 3 7 5 ((2 : Int) ^ 10) = some run ∧
      adjust_xyz 3 7 5 ((2 : Int) ^ 10) = some run.result ∧
      (∀ v ∈ run.ctz_args, v ≠ 0 ∧ ∃ t, count_trailing_zeros v = some t) ∧
      (run.early_return = false → 0 < run.need) ∧
      (∀ k ∈ run.shifts, 0 ≤ k ∧ k ≤ 10) :=
  adjust_xyz_total 3 7 5 10 (by decide) (by decide) (by decide) (by decide)

/-- Two runs of `adjust_xyz`, evaluated: `(3, 7, 5)` with subgroup size 1024 passes the
exponents 3, 3 and 7 to `round_up_pow2_mul` with `need = 10`; `(0, 7, 5)` with subgroup
size 8 leaves through the early return before `count_trailing_zeros` is called. -/
theorem adjust_xyz_run_examples :
    adjust_xyz_run 3 7 5 1024 =
      some { result := (128, 8, 8), early_return := false, ctz_args := [3, 7, 5],
             need := 10, shifts := [3, 3, 7] } ∧
    adjust_xyz_run 0 7 5 8 =
      some { result := (0, 7, 5), early_return := true, ctz_args := [], need := 0,
             shifts := [] } := by
  decide

end ncnn
